import Mathlib

/-!
# MuPDF image loader (`pdf/pdf_image.c`): shallow embedding and verified properties

The embedding follows `pdf_mask_color_key`, `pdf_load_image_imp`,
`pdf_is_jpx_image`, `pdf_load_jpx_image` and `pdf_load_image` statement by
statement.

Conventions
* C `int` values are `Int`; products and sums that the C code computes in
  `int` go through `wrap32` (32-bit signed wrap-around), `/` on `int` is
  `Int.tdiv` (truncation toward zero).
* `unsigned char` buffers are `List Nat`.
* An image dictionary is seen through the dictionary accessors
  (`fz_dict_getsa`, `fz_dict_gets`, `fz_to_int`, `fz_to_bool`): `Attrs`
  records what those lookups return, `Descr` adds the SMask/Mask slot, which is
  the only entry the loader recurses into.
* Functions of fitz / the document layer whose code is not part of
  `pdf_image.c` (colorspace loading, pixmap allocation, stream opening, the
  unpacker, the decode mappers, the JPX codec, the store) are fields of `Env`.
* Every call of such a collaborator that the properties below talk about, and
  every `fz_warn`, is recorded in an event log, in program order.  Reference-count
  releases (`fz_drop_*`, `fz_free`, `fz_close`) are not recorded.
-/

namespace MuPDF

/-! ## Machine integers -/

/-- Wrap-around of a mathematical integer to a 32-bit signed `int`. -/
def wrap32 (x : Int) : Int := (x + 2147483648) % 4294967296 - 2147483648

/-- C `a * b` on `int`. -/
def imul (a b : Int) : Int := wrap32 (a * b)

/-- C `a + b` on `int`. -/
def iadd (a b : Int) : Int := wrap32 (a + b)

/-- C `a - b` on `int`. -/
def isub (a b : Int) : Int := wrap32 (a - b)

/-- C `a / b` on `int` (truncation toward zero). -/
def idiv (a b : Int) : Int := Int.tdiv a b

/-- C `1 << k` on `int`, for a shift count `0 <= k`. -/
def ishl1 (k : Int) : Int := wrap32 (2 ^ k.toNat)

/-- C `~b` stored back into an `unsigned char`: `~` yields the `int` `-b-1`,
the store keeps it modulo 256. -/
def bnot8 (b : Nat) : Nat := ((-(b : Int) - 1) % 256).toNat

/-! ## Objects, descriptors, errors, events -/

/-- An entry of a PDF array, as far as the image loader looks at it. -/
inductive Scalar where
  | int (i : Int)
  | real (r : Rat)
  | name (s : String)
  | other
  deriving DecidableEq, Repr

/-- A dictionary value that is not itself a dictionary. -/
inductive Obj where
  | scalar (v : Scalar)
  | array (items : List Scalar)
  deriving DecidableEq, Repr

/-- Modelled from the spec: the typed accessor `fz_is_int` (code in fitz, not
in this translation unit); true exactly on an integer object, false on the
NULL pointer. -/
def fz_is_int : Option Scalar → Bool
  | some (Scalar.int _) => true
  | _ => false

/-- Modelled from the spec: `fz_is_name` on a dictionary value. -/
def fz_is_name : Obj → Bool
  | Obj.scalar (Scalar.name _) => true
  | _ => false

/-- Modelled from the spec: `fz_is_array` on a (possibly NULL) dictionary value. -/
def fz_is_array : Option Obj → Bool
  | some (Obj.array _) => true
  | _ => false

/-- Modelled from the spec: `fz_to_name`, the text of a name, or the empty
string for anything that is not a name. -/
def fz_to_name : Option Obj → String
  | some (Obj.scalar (Scalar.name s)) => s
  | _ => ""

/-- Modelled from the spec: `fz_array_len`, zero for anything that is not an
array. -/
def fz_array_len : Option Obj → Nat
  | some (Obj.array items) => items.length
  | _ => 0

/-- Modelled from the spec: `fz_array_get`, NULL when the object is not an
array or the index is out of range. -/
def fz_array_get : Option Obj → Nat → Option Scalar
  | some (Obj.array items), i => items[i]?
  | _, _ => none

/-- The resource dictionary `rdb`: its `ColorSpace` sub-dictionary. -/
structure Resources where
  ColorSpace : List (String × Obj)
  deriving DecidableEq, Repr

/-- What the dictionary accessors return on an image dictionary, for every key
the loader reads except SMask/Mask. -/
structure Attrs where
  /-- Object number, `fz_to_num(dict)`. -/
  num : Int
  /-- Generation number, `fz_to_gen(dict)`. -/
  gen : Int
  /-- Value of `fz_dict_gets(dict, "Filter")`. -/
  Filter : Option Obj
  /-- Value of `fz_to_int(fz_dict_getsa(dict, "Width", "W"))`. -/
  Width : Int
  /-- Value of `fz_to_int(fz_dict_getsa(dict, "Height", "H"))`. -/
  Height : Int
  /-- Value of `fz_to_int(fz_dict_getsa(dict, "BitsPerComponent", "BPC"))`. -/
  BitsPerComponent : Int
  /-- Value of `fz_to_bool(fz_dict_getsa(dict, "ImageMask", "IM"))`. -/
  ImageMask : Bool
  /-- Value of `fz_to_bool(fz_dict_getsa(dict, "Interpolate", "I"))`. -/
  Interpolate : Bool
  /-- Value of `fz_dict_gets(dict, "ColorSpace")`. -/
  ColorSpace : Option Obj
  /-- Value of `fz_dict_gets(dict, "CS")`. -/
  CS : Option Obj
  /-- Value of `fz_dict_getsa(dict, "Decode", "D")`. -/
  Decode : Option Obj
  deriving DecidableEq, Repr

/-- An image dictionary.  `plain a v`: the SMask/Mask lookup gives `v`, which
is NULL or an object that is not a dictionary.  `masked a m`: the SMask/Mask
lookup gives the dictionary `m`. -/
inductive Descr where
  | plain (a : Attrs) (smask : Option Obj)
  | masked (a : Attrs) (smask : Descr)
  deriving Repr

/-- The entries of a descriptor other than SMask/Mask. -/
def Descr.attrs : Descr → Attrs
  | Descr.plain a _ => a
  | Descr.masked a _ => a

/-- The SMask/Mask lookup when it is not a dictionary (NULL for `masked`,
where `fz_is_dict` holds and the value is never read as an array). -/
def Descr.slot : Descr → Option Obj
  | Descr.plain _ v => v
  | Descr.masked _ _ => none

/-- Number of nested SMask/Mask sub-dictionary levels below a descriptor. -/
def Descr.mask_levels : Descr → Nat
  | Descr.plain _ _ => 0
  | Descr.masked _ m => m.mask_levels + 1

/-- An `fz_error`: a message made by `fz_error_make`, a cause annotated by
`fz_error_note`, or a raw negative code (the result of a failed `fz_read`). -/
inductive Error where
  | make (fmt : String) (args : List Int)
  | note (cause : Error) (fmt : String) (args : List Int)
  | code (c : Int)
  deriving DecidableEq, Repr

/-- A colorspace as the loader sees it: `colorspace->name`, `colorspace->n`. -/
structure Colorspace where
  name : String
  n : Int
  deriving DecidableEq, Repr

/-- An `fz_pixmap`: `w`, `h`, `n`, `samples`, `has_alpha`, `interpolate`, `mask`. -/
inductive Pixmap where
  | mk (w h n : Int) (samples : List Nat) (has_alpha interpolate : Bool)
      (mask : Option Pixmap)
  deriving Repr

namespace Pixmap

def w : Pixmap → Int
  | mk w _ _ _ _ _ _ => w

def h : Pixmap → Int
  | mk _ h _ _ _ _ _ => h

def n : Pixmap → Int
  | mk _ _ n _ _ _ _ => n

def samples : Pixmap → List Nat
  | mk _ _ _ s _ _ _ => s

def has_alpha : Pixmap → Bool
  | mk _ _ _ _ a _ _ => a

def interpolate : Pixmap → Bool
  | mk _ _ _ _ _ i _ => i

def mask : Pixmap → Option Pixmap
  | mk _ _ _ _ _ _ m => m

def set_samples : Pixmap → List Nat → Pixmap
  | mk w h n _ a i m, s => mk w h n s a i m

def set_has_alpha : Pixmap → Bool → Pixmap
  | mk w h n s _ i m, a => mk w h n s a i m

def set_interpolate : Pixmap → Bool → Pixmap
  | mk w h n s a _ m, i => mk w h n s a i m

def set_mask : Pixmap → Option Pixmap → Pixmap
  | mk w h n s a i _, m => mk w h n s a i m

end Pixmap

/-- Modelled from the spec: a byte stream, `read(reader, buffer) ->
bytes_read | negative_on_error`.  `data` are the bytes the stream can still
deliver; `error = some c` is a stream whose reads fail, with the negative
code `-(c+1)`. -/
structure Stream where
  data : List Nat
  error : Option Nat
  deriving DecidableEq, Repr

/-- Modelled from the spec: `fz_read(stm, buf, count)` gives the negative error
code of a failing stream, else delivers at most `count` bytes; the result is
the returned length, the bytes written to the front of `buf`, and the stream
after the read. -/
def fz_read (stm : Stream) (count : Int) : Int × List Nat × Stream :=
  match stm.error with
  | some c => (-(c : Int) - 1, [], stm)
  | none =>
    let got := stm.data.take count.toNat
    ((got.length : Int), got, { stm with data := stm.data.drop count.toNat })

/-- A collaborator call or warning observed during a load. -/
inductive Event where
  | warn (fmt : String) (args : List Int)
  | error_handle (fmt : String)
  | load_colorspace (obj : Obj)
  | load_mask (depth : Nat)
  | new_pixmap (w h : Int)
  | open_stream (num gen : Int)
  | open_inline_stream (length : Int)
  | calloc (count size : Int)
  | read (count : Int)
  | load_stream (num gen : Int)
  | load_jpx
  | find_item (num : Int)
  | store_item (num : Int)
  deriving DecidableEq, Repr

/-- The collaborators of the image loader whose code lives outside
`pdf_image.c`. -/
structure Env where
  fz_to_int : Option Scalar → Int
  fz_to_real : Option Scalar → Rat
  pdf_load_colorspace : Obj → Except Error Colorspace
  fz_new_pixmap_with_limit : Option Colorspace → Int → Int → Option Pixmap
  pdf_open_stream : Int → Int → Except Error Stream
  pdf_open_inline_stream : Stream → Int → Stream
  /-- Whether `fz_calloc_no_abort(ctx, count, size)` returns memory. -/
  fz_calloc_no_abort : Int → Int → Bool
  fz_unpack_tile : Pixmap → List Nat → Int → Int → Int → Bool → Pixmap
  fz_decode_indexed_tile : Pixmap → List Rat → Int → Pixmap
  pdf_expand_indexed_pixmap : Pixmap → Pixmap
  fz_decode_tile : Pixmap → List Rat → Pixmap
  pdf_load_stream : Int → Int → Except Error (List Nat)
  fz_load_jpx_image : List Nat → Option Colorspace → Except Error Pixmap
  fz_alpha_from_gray : Pixmap → Int → Pixmap
  pdf_find_item : Int → Option Pixmap

/-- Outcome of a run: the returned error or value, and the events in program
order. -/
abbrev Run (α : Type) := Except Error α × List Event

/-- A run that returns an error at once. -/
def raise {α : Type} (e : Error) : Run α := (Except.error e, [])

/-- A run that returns a value at once. -/
def ret {α : Type} (x : α) : Run α := (Except.ok x, [])

/-- The events `es` followed by the run `r`. -/
def emit {α : Type} (es : List Event) (r : Run α) : Run α := (r.1, es ++ r.2)

/-- Sequencing, `error = f(&x, ...); if (error) return error; ...`: when `r`
returns an error the whole run returns it, else the run goes on with `k`. -/
def and_then {α β : Type} (r : Run α) (k : α → Run β) : Run β :=
  match r.1 with
  | Except.error e => (Except.error e, r.2)
  | Except.ok x => emit r.2 (k x)

/-- The annotation `fz_error_note(ctx, error, fmt, args)` of the error of a run. -/
def noted {α : Type} (r : Run α) (fmt : String) (args : List Int) : Run α :=
  match r.1 with
  | Except.error e => (Except.error (Error.note e fmt args), r.2)
  | Except.ok x => (Except.ok x, r.2)

/-! ## `pdf_mask_color_key` -/

/-- The loop `for (k = 0; k < n; k++) if (p[k] < colorkey[k * 2] ||
p[k] > colorkey[k * 2 + 1]) t = 0;` with `count` iterations left, at
component `k`, the pixel starting at offset `p` of `samples`. -/
def color_key_test (samples : List Nat) (colorkey : List Int) (p : Nat) :
    Nat → Nat → Bool → Bool
  | 0, _, t => t
  | count + 1, k, t =>
    let pk : Int := (samples.getD (p + k) 0 : Nat)
    let t := if pk < colorkey.getD (k * 2) 0 ∨ pk > colorkey.getD (k * 2 + 1) 0
      then false else t
    color_key_test samples colorkey p count (k + 1) t

/-- The loop `for (k = 0; k < pix->n; k++) p[k] = 0;` with `count` iterations
left, at component `k`. -/
def zero_pixel (p : Nat) : Nat → Nat → List Nat → List Nat
  | 0, _, samples => samples
  | count + 1, k, samples => zero_pixel p count (k + 1) (samples.set (p + k) 0)

/-- The loop `while (len--) { ...; p += pix->n; }` with `len` iterations left
and the pointer `p` as an offset into `samples`. -/
def mask_loop (n pn : Nat) (colorkey : List Int) : Nat → Nat → List Nat → List Nat
  | 0, _, samples => samples
  | len + 1, p, samples =>
    let t := color_key_test samples colorkey p n 0 true
    let samples := if t then zero_pixel p pn 0 samples else samples
    mask_loop n pn colorkey len (p + pn) samples

/-- The function `pdf_mask_color_key(pix, n, colorkey)`.  `while (len--)` on an
`int` runs `len mod 2^32` times (it stops when the counter reaches zero). -/
def pdf_mask_color_key (pix : Pixmap) (n : Int) (colorkey : List Int) : Pixmap :=
  let len := imul pix.w pix.h
  let samples :=
    mask_loop n.toNat pix.n.toNat colorkey (len % 4294967296).toNat 0 pix.samples
  (pix.set_samples samples).set_has_alpha (decide (pix.n > n))

/-! ## Pieces of `pdf_load_image_imp` -/

/-- Lines 127-138: the `decode` array.  The list holds the entries
`decode[0 .. 2n-1]` that the loops write. -/
def image_decode (env : Env) (obj : Option Obj) (indexed : Bool) (bpc n : Int) :
    List Rat :=
  match obj with
  | some o =>
    (List.range (imul n 2).toNat).map fun i => env.fz_to_real (fz_array_get (some o) i)
  | none =>
    let maxval : Rat := if indexed then ((isub (ishl1 bpc) 1 : Int) : Rat) else 1
    (List.range (imul n 2).toNat).map fun i => if i &&& 1 ≠ 0 then maxval else 0

/-- Lines 158-166: the loop over the color key array, with `count` iterations
left at index `i`; the state is `usecolorkey`, the entries of `colorkey`
written so far, and the warnings given so far. -/
def color_key_loop (env : Env) (obj : Option Obj) :
    Nat → Nat → Bool × List Int × List Event → Bool × List Int × List Event
  | 0, _, st => st
  | count + 1, i, (usecolorkey, colorkey, log) =>
    let item := fz_array_get obj i
    let st :=
      if fz_is_int item = false then
        (false, colorkey ++ [env.fz_to_int item],
          log ++ [Event.warn "invalid value in color key mask" []])
      else
        (usecolorkey, colorkey ++ [env.fz_to_int item], log)
    color_key_loop env obj count (i + 1) st

/-- Lines 155-167: `usecolorkey = 1;` followed by the loop. -/
def color_key_scan (env : Env) (obj : Option Obj) (n : Int) :
    Bool × List Int × List Event :=
  color_key_loop env obj (imul n 2).toNat 0 (true, [], [])

/-- The call `memset(samples + off, c, count)`. -/
def memset (c : Nat) : List Nat → Nat → Nat → List Nat
  | samples, _, 0 => samples
  | samples, off, count + 1 => memset c (samples.set off c) (off + 1) count

/-- Line 186: `stride = (w * n * bpc + 7) / 8`. -/
def image_stride (w n bpc : Int) : Int :=
  idiv (iadd (imul (imul w n) bpc) 7) 8

/-- Lines 233-238: pad a truncated image.  `len` is the result of `fz_read`. -/
def pad_truncated (num : Int) (samples : List Nat) (len stride h : Int) :
    List Nat × List Event :=
  if len < imul stride h then
    (memset 0 samples len.toNat (isub (imul stride h) len).toNat,
      [Event.warn "padding truncated image (%d 0 R)" [num]])
  else
    (samples, [])

/-- The loop `for (i = 0; i < len; i++) p[i] = ~p[i];` with `count` iterations
left at index `i`. -/
def invert_loop : Nat → Nat → List Nat → List Nat
  | 0, _, samples => samples
  | count + 1, i, samples =>
    invert_loop count (i + 1) (samples.set i (bnot8 (samples.getD i 0)))

/-- Lines 240-248: invert 1-bit image masks, with `len = h * stride`. -/
def invert_image_mask (imagemask : Bool) (samples : List Nat) (stride h : Int) :
    List Nat :=
  if imagemask then
    let len := imul h stride
    invert_loop len.toNat 0 samples
  else
    samples

/-- Lines 186-238 after the stream is open: allocate the sample buffer, read,
read the end marker of an inline image, pad.  The result is the padded sample
buffer.  `calloc(h, stride)` gives `h * stride` zero bytes; `fz_read` writes
the bytes it got to the front of the buffer. -/
def read_samples (env : Env) (num : Int) (inline_image : Bool) (stm : Stream)
    (stride h : Int) : Run (List Nat) :=
  emit [Event.calloc h stride] <|
  if env.fz_calloc_no_abort h stride = false then
    raise (Error.make "out of memory" [])
  else
    let samples := List.replicate (h * stride).toNat 0
    emit [Event.read (imul h stride)] <|
    match fz_read stm (imul h stride) with
    | (len, got, stm) =>
      if len < 0 then
        raise (Error.note (Error.code len) "cannot read image data" [])
      else
        let samples := got ++ samples.drop got.length
        let tail_events :=
          if inline_image then
            let tlen := (fz_read stm 512).1
            (if tlen < 0 then [Event.error_handle "ignoring error at end of image"]
              else []) ++
            (if tlen > 0 then [Event.warn "ignoring garbage at end of image" []]
              else [])
          else []
        emit tail_events <|
        match pad_truncated num samples len stride h with
        | (samples, warnings) => emit warnings (ret samples)

/-- Lines 186-272: open the stream, read and pad the samples, invert, unpack,
mask by color key, decode. -/
def load_samples (env : Env) (a : Attrs) (cstm : Option Stream) (w h bpc n : Int)
    (imagemask indexed usecolorkey : Bool) (colorkey : List Int)
    (decode : List Rat) (tile : Pixmap) : Run Pixmap :=
  let stride := image_stride w n bpc
  let opened : Run Stream :=
    match cstm with
    | some c =>
      emit [Event.open_inline_stream (imul stride h)]
        (ret (env.pdf_open_inline_stream c (imul stride h)))
    | none =>
      emit [Event.open_stream a.num a.gen] <|
      match env.pdf_open_stream a.num a.gen with
      | Except.error e =>
        raise (Error.note e "cannot open image data stream (%d 0 R)" [a.num])
      | Except.ok stm => ret stm
  and_then opened fun stm =>
  and_then (read_samples env a.num cstm.isSome stm stride h) fun samples =>
  let samples := invert_image_mask imagemask samples stride h
  let tile := env.fz_unpack_tile tile samples n bpc stride indexed
  let tile := if usecolorkey then pdf_mask_color_key tile n colorkey else tile
  if indexed then
    let tile := env.fz_decode_indexed_tile tile decode (isub (ishl1 bpc) 1)
    ret (env.pdf_expand_indexed_pixmap tile)
  else
    ret (env.fz_decode_tile tile decode)

/-- Lines 140-167: SMask/Mask dispatch.  `nested` is the outcome of the
recursive call `pdf_load_image_imp(&mask, xref, rdb, obj, NULL, 1)` when the
SMask/Mask value is a dictionary, and `none` when it is not; `slot` is the
SMask/Mask value when it is not a dictionary.  The result is `mask`,
`usecolorkey` and the entries of `colorkey` written. -/
def mask_dispatch (env : Env) (depth : Nat) (slot : Option Obj)
    (nested : Option (Run Pixmap)) (cstm : Option Stream) (n : Int) :
    Run (Option Pixmap × Bool × List Int) :=
  match nested with
  | some mask_run =>
    match cstm with
    | none =>
      emit [Event.load_mask (depth + 1)] <|
      and_then (noted mask_run "cannot load image mask/softmask" []) fun mask =>
      ret (some mask, false, [])
    | some _ => ret (none, false, [])
  | none =>
    if fz_is_array slot then
      match color_key_scan env slot n with
      | (usecolorkey, colorkey, warnings) => emit warnings (ret (none, usecolorkey, colorkey))
    else
      ret (none, false, [])

/-- Lines 140-272: SMask/Mask dispatch, allocation of the tile, then the rest
of the load. -/
def load_masked (env : Env) (depth : Nat) (a : Attrs) (slot : Option Obj)
    (nested : Option (Run Pixmap)) (cstm : Option Stream) (w h bpc n : Int)
    (imagemask interpolate indexed : Bool) (colorspace : Option Colorspace)
    (decode : List Rat) : Run Pixmap :=
  and_then (mask_dispatch env depth slot nested cstm n) fun dispatched =>
  let mask := dispatched.1
  let usecolorkey := dispatched.2.1
  let colorkey := dispatched.2.2
  emit [Event.new_pixmap w h] <|
  match env.fz_new_pixmap_with_limit colorspace w h with
  | none => raise (Error.make "out of memory" [])
  | some tile =>
    let tile := tile.set_mask mask
    let tile := tile.set_interpolate interpolate
    load_samples env a cstm w h bpc n imagemask indexed usecolorkey colorkey decode tile

/-- Lines 102-138 and what follows: colorspace, decode array, then the rest. -/
def load_validated (env : Env) (depth : Nat) (rdb : Option Resources) (a : Attrs)
    (slot : Option Obj) (nested : Option (Run Pixmap)) (cstm : Option Stream)
    (forcemask : Bool) (w h bpc : Int) (imagemask interpolate : Bool) : Run Pixmap :=
  let continue_with (colorspace : Option Colorspace) (indexed : Bool) (n : Int) :
      Run Pixmap :=
    let decode := image_decode env a.Decode indexed bpc n
    load_masked env depth a slot nested cstm w h bpc n imagemask interpolate indexed
      colorspace decode
  match a.ColorSpace <|> a.CS with
  | some obj =>
    if imagemask = false ∧ forcemask = false then
      let obj :=
        if fz_is_name obj then
          match rdb with
          | some r =>
            match r.ColorSpace.lookup (fz_to_name (some obj)) with
            | some res => res
            | none => obj
          | none => obj
        else obj
      emit [Event.load_colorspace obj] <|
      match env.pdf_load_colorspace obj with
      | Except.error e => raise (Error.note e "cannot load image colorspace" [])
      | Except.ok colorspace =>
        continue_with (some colorspace) (colorspace.name = "Indexed") colorspace.n
    else
      continue_with none false 1
  | none => continue_with none false 1

/-- The function `pdf_is_jpx_image(ctx, dict)`, on the value of the Filter entry. -/
def pdf_is_jpx_image (filter : Option Obj) : Bool :=
  if fz_to_name filter = "JPXDecode" then true
  else
    (List.range (fz_array_len filter)).any fun i =>
      fz_to_name ((fz_array_get filter i).map Obj.scalar) = "JPXDecode"

/-- Lines 317-323 of `pdf_load_jpx_image`: the colorspace, NULL when there is
no ColorSpace entry or when loading it fails (the error is only reported). -/
def jpx_colorspace (env : Env) (a : Attrs) : Option Colorspace × List Event :=
  match a.ColorSpace with
  | some obj =>
    match env.pdf_load_colorspace obj with
    | Except.error _ =>
      (none, [Event.load_colorspace obj, Event.error_handle "cannot load image colorspace"])
    | Except.ok cs => (some cs, [Event.load_colorspace obj])
  | none => (none, [])

/-- Lines 349-360 of `pdf_load_jpx_image`: apply the Decode array unless the
colorspace is Indexed. -/
def jpx_decode (env : Env) (a : Attrs) (colorspace : Option Colorspace)
    (img : Pixmap) : Pixmap :=
  match a.Decode with
  | some obj =>
    if (match colorspace with
        | none => true
        | some cs => cs.name ≠ "Indexed") then
      let decode := (List.range (imul img.n 2).toNat).map fun i =>
        env.fz_to_real (fz_array_get (some obj) i)
      env.fz_decode_tile img decode
    else img
  | none => img

/-- Lines 338-347 of `pdf_load_jpx_image`: SMask/Mask dispatch.  `nested` is the
outcome of the recursive call
`pdf_load_image_imp(&img->mask, xref, NULL, obj, NULL, 1)` when the SMask/Mask
value is a dictionary, `none` when it is not. -/
def jpx_mask (depth : Nat) (nested : Option (Run Pixmap)) (img : Pixmap) :
    Run Pixmap :=
  match nested with
  | some mask_run =>
    emit [Event.load_mask (depth + 1)] <|
    and_then (noted mask_run "cannot load image mask/softmask" []) fun mask =>
    ret (img.set_mask (some mask))
  | none => ret img

/-- The function `pdf_load_jpx_image(imgp, xref, dict)`. -/
def pdf_load_jpx_image (env : Env) (depth : Nat) (a : Attrs)
    (nested : Option (Run Pixmap)) : Run Pixmap :=
  emit [Event.load_stream a.num a.gen] <|
  match env.pdf_load_stream a.num a.gen with
  | Except.error e => raise (Error.note e "cannot load jpx image data" [])
  | Except.ok buf =>
    let colorspace := (jpx_colorspace env a).1
    emit (jpx_colorspace env a).2 <|
    emit [Event.load_jpx] <|
    match env.fz_load_jpx_image buf colorspace with
    | Except.error e => raise (Error.note e "cannot load jpx image" [])
    | Except.ok img =>
      and_then (jpx_mask depth nested img) fun img =>
      ret (jpx_decode env a colorspace img)

/-- The body of `pdf_load_image_imp(imgp, xref, rdb, dict, cstm, forcemask)`.
The two recursive calls the body can make on the SMask/Mask dictionary (line
146 with `rdb`, line 341 inside `pdf_load_jpx_image` with a NULL `rdb`) are
passed in as `nested` and `nested_jpx`. -/
def load_image_body (env : Env) (depth : Nat) (rdb : Option Resources) (a : Attrs)
    (slot : Option Obj) (nested nested_jpx : Option (Run Pixmap))
    (cstm : Option Stream) (forcemask : Bool) : Run Pixmap :=
  if pdf_is_jpx_image a.Filter then
    and_then (noted (pdf_load_jpx_image env depth a nested_jpx) "cannot load jpx image" [])
      fun tile =>
      if forcemask then
        if tile.n ≠ 2 then
          raise (Error.make "softmask must be grayscale" [])
        else
          ret (env.fz_alpha_from_gray tile 1)
      else
        ret tile
  else
    let w := a.Width
    let h := a.Height
    let bpc := a.BitsPerComponent
    let imagemask := a.ImageMask
    let interpolate := a.Interpolate
    let bpc := if imagemask then 1 else bpc
    if w = 0 then raise (Error.make "image width is zero" [])
    else if h = 0 then raise (Error.make "image height is zero" [])
    else if bpc = 0 then raise (Error.make "image depth is zero" [])
    else if bpc > 16 then raise (Error.make "image depth is too large: %d" [bpc])
    else if w > ishl1 16 then raise (Error.make "image is too wide" [])
    else if h > ishl1 16 then raise (Error.make "image is too high" [])
    else
      load_validated env depth rdb a slot nested cstm forcemask w h bpc imagemask
        interpolate

/-- The function `pdf_load_image_imp(imgp, xref, rdb, dict, cstm, forcemask)`.
`depth` is the nesting depth of this call (1 for a call made by
`pdf_load_image` or `pdf_load_inline_image`); it only labels the
`load_mask` events. -/
def pdf_load_image_imp (env : Env) (depth : Nat) (rdb : Option Resources) :
    Descr → Option Stream → Bool → Run Pixmap
  | Descr.plain a v, cstm, forcemask =>
    load_image_body env depth rdb a v none none cstm forcemask
  | Descr.masked a m, cstm, forcemask =>
    load_image_body env depth rdb a none
      (some (pdf_load_image_imp env (depth + 1) rdb m none true))
      (some (pdf_load_image_imp env (depth + 1) none m none true))
      cstm forcemask

/-- The call `pdf_load_jpx_image(&tile, xref, dict)` that `pdf_load_image_imp`
makes at line 56 when it runs on `dict` at nesting depth `depth`. -/
def jpx_call (env : Env) (depth : Nat) : Descr → Run Pixmap
  | Descr.plain a _ => pdf_load_jpx_image env depth a none
  | Descr.masked a m =>
    pdf_load_jpx_image env depth a (some (pdf_load_image_imp env (depth + 1) none m none true))

/-- The recursive call on the SMask/Mask dictionary that a run of
`pdf_load_image_imp` on `dict` at nesting depth `depth` can make:
`pdf_load_image_imp(&mask, xref, rdb, obj, NULL, 1)` of line 146, or, with a
NULL `rdb`, the call of line 341; `none` when the SMask/Mask value is not a
dictionary. -/
def mask_call (env : Env) (depth : Nat) (rdb : Option Resources) :
    Descr → Option (Run Pixmap)
  | Descr.plain _ _ => none
  | Descr.masked _ m => some (pdf_load_image_imp env (depth + 1) rdb m none true)

/-- Lines 102-125 on their own: the colorspace that the loader resolves, NULL
when there is no ColorSpace entry, for an image mask and in force-mask mode. -/
def colorspace_stage (env : Env) (rdb : Option Resources) (a : Attrs)
    (imagemask forcemask : Bool) : Run (Option Colorspace) :=
  match a.ColorSpace <|> a.CS with
  | some obj =>
    if imagemask = false ∧ forcemask = false then
      let obj :=
        if fz_is_name obj then
          match rdb with
          | some r =>
            match r.ColorSpace.lookup (fz_to_name (some obj)) with
            | some res => res
            | none => obj
          | none => obj
        else obj
      emit [Event.load_colorspace obj] <|
      match env.pdf_load_colorspace obj with
      | Except.error e => raise (Error.note e "cannot load image colorspace" [])
      | Except.ok colorspace => ret (some colorspace)
    else
      ret none
  | none => ret none

/-- Lines 120 and 124: `n = colorspace->n`, or `n = 1` without a colorspace. -/
def colorspace_n : Option Colorspace → Int
  | some colorspace => colorspace.n
  | none => 1

/-- Lines 81 and 117-118: `indexed`, set when `colorspace->name` is "Indexed". -/
def colorspace_indexed : Option Colorspace → Bool
  | some colorspace => decide (colorspace.name = "Indexed")
  | none => false

/-- Lines 188-200 on their own: the stream the samples are read from. -/
def image_stream (env : Env) (a : Attrs) (cstm : Option Stream) (stride h : Int) :
    Except Error Stream :=
  match cstm with
  | some c => Except.ok (env.pdf_open_inline_stream c (imul stride h))
  | none => env.pdf_open_stream a.num a.gen

/-- The event of opening the stream, lines 188-200. -/
def image_stream_event (a : Attrs) (cstm : Option Stream) (stride h : Int) : Event :=
  match cstm with
  | some _ => Event.open_inline_stream (imul stride h)
  | none => Event.open_stream a.num a.gen

/-- The function `pdf_load_inline_image(pixp, xref, rdb, dict, file)`. -/
def pdf_load_inline_image (env : Env) (rdb : Option Resources) (dict : Descr)
    (file : Stream) : Run Pixmap :=
  noted (pdf_load_image_imp env 1 rdb dict (some file) false) "cannot load inline image" []

/-- The function `pdf_load_image(pixp, xref, dict)`. -/
def pdf_load_image (env : Env) (dict : Descr) : Run Pixmap :=
  emit [Event.find_item dict.attrs.num] <|
  match env.pdf_find_item dict.attrs.num with
  | some pix => ret pix
  | none =>
    and_then
      (noted (pdf_load_image_imp env 1 none dict none false) "cannot load image (%d 0 R)"
        [dict.attrs.num])
      fun pix => emit [Event.store_item dict.attrs.num] (ret pix)

/-! ## Reference definitions for the statements -/

/-- The exact byte length of the sample buffer, `ceil(w*n*bpc/8) * h`, over the
mathematical integers. -/
def exact_byte_length (w h n bpc : Int) : Int := (w * n * bpc + 7) / 8 * h

/-- The condition of the spec for one pixel: each of the `n` components of
the pixel at offset `p` lies in its inclusive range
`colorkey[2k] .. colorkey[2k+1]`. -/
def in_color_key (samples : List Nat) (colorkey : List Int) (p n : Nat) : Prop :=
  ∀ k, k < n →
    colorkey.getD (k * 2) 0 ≤ (samples.getD (p + k) 0 : Int) ∧
    (samples.getD (p + k) 0 : Int) ≤ colorkey.getD (k * 2 + 1) 0

instance (samples : List Nat) (colorkey : List Int) (p n : Nat) :
    Decidable (in_color_key samples colorkey p n) :=
  inferInstanceAs (Decidable (∀ k, k < n →
    colorkey.getD (k * 2) 0 ≤ (samples.getD (p + k) 0 : Int) ∧
    (samples.getD (p + k) 0 : Int) ≤ colorkey.getD (k * 2 + 1) 0))

/-- Recognises the event of a nested call of `pdf_load_image_imp`. -/
def is_load_mask : Event → Bool
  | Event.load_mask _ => true
  | _ => false

/-- Number of nested calls of `pdf_load_image_imp` recorded in a log. -/
def nested_calls (log : List Event) : Nat := log.countP is_load_mask

/-- Bound on the nested calls of one level of the load: the nested call
itself and the calls it makes, when there is an SMask/Mask dictionary. -/
def nested_bound : Option (Run Pixmap) → Nat
  | some r => 1 + nested_calls r.2
  | none => 0

/-! ## A sample environment and sample descriptors

They instantiate the theorems below at concrete inputs. -/

/-- An environment in which every collaborator succeeds: three colorspaces,
streams of `num` bytes of value 7 for object `num`, an unpacker that stores
the raw samples, identity decode mappers, a JPX codec that gives a 1 x 1
gray+alpha pixmap, an empty store. -/
def sample_env : Env where
  fz_to_int := fun o =>
    match o with
    | some (Scalar.int i) => i
    | _ => 0
  fz_to_real := fun o =>
    match o with
    | some (Scalar.int i) => i
    | some (Scalar.real r) => r
    | _ => 0
  pdf_load_colorspace := fun o =>
    match o with
    | Obj.scalar (Scalar.name "DeviceGray") => Except.ok ⟨"DeviceGray", 1⟩
    | Obj.scalar (Scalar.name "DeviceRGB") => Except.ok ⟨"DeviceRGB", 3⟩
    | Obj.scalar (Scalar.name "Indexed") => Except.ok ⟨"Indexed", 1⟩
    | _ => Except.error (Error.make "unknown colorspace" [])
  fz_new_pixmap_with_limit := fun cs w h =>
    some (Pixmap.mk w h
      (match cs with
        | some c => c.n + 1
        | none => 1) [] true false none)
  pdf_open_stream := fun num _ => Except.ok ⟨List.replicate num.toNat 7, none⟩
  pdf_open_inline_stream := fun s _ => s
  fz_calloc_no_abort := fun _ _ => true
  fz_unpack_tile := fun t s _ _ _ _ => t.set_samples s
  fz_decode_indexed_tile := fun t _ _ => t
  pdf_expand_indexed_pixmap := fun t => t
  fz_decode_tile := fun t _ => t
  pdf_load_stream := fun _ _ => Except.ok []
  fz_load_jpx_image := fun _ _ => Except.ok (Pixmap.mk 1 1 2 [1, 2] true false none)
  fz_alpha_from_gray := fun t _ => Pixmap.mk t.w t.h 1 [] false false none
  pdf_find_item := fun _ => none

/-- A 2 x 2 DeviceGray image of 8 bits per component, object 3. -/
def gray_attrs : Attrs where
  num := 3
  gen := 0
  Filter := none
  Width := 2
  Height := 2
  BitsPerComponent := 8
  ImageMask := false
  Interpolate := false
  ColorSpace := some (Obj.scalar (Scalar.name "DeviceGray"))
  CS := none
  Decode := none

/-- A JPX image, object 5. -/
def jpx_attrs : Attrs :=
  { gray_attrs with num := 5, Filter := some (Obj.scalar (Scalar.name "JPXDecode")) }

/-- A 2 x 2 image of 4 bits per component with an Indexed colorspace, object 3. -/
def indexed_attrs : Attrs :=
  { gray_attrs with
    BitsPerComponent := 4
    ColorSpace := some (Obj.scalar (Scalar.name "Indexed")) }

/-- A 9 x 2 image mask, object 3 (stride 2, four bytes). -/
def stencil_attrs : Attrs :=
  { gray_attrs with
    Width := 9
    ImageMask := true
    ColorSpace := none }

/-! ## Theorems -/

theorem ishl1_16 : ishl1 16 = 65536 := by decide

theorem mem_emit {α : Type} (e : Event) (es : List Event) (r : Run α) :
    e ∈ (emit es r).2 ↔ e ∈ es ∨ e ∈ r.2 := by
  simp [emit]

theorem mem_and_then {α β : Type} (e : Event) (r : Run α) (k : α → Run β) :
    e ∈ (and_then r k).2 → e ∈ r.2 ∨ ∃ x, r.1 = Except.ok x ∧ e ∈ (k x).2 := by
  unfold and_then
  split
  · intro h; exact Or.inl h
  · rename_i x hx
    intro h
    rcases (mem_emit _ _ _).1 h with h | h
    · exact Or.inl h
    · exact Or.inr ⟨x, hx, h⟩

theorem noted_log {α : Type} (r : Run α) (fmt : String) (args : List Int) :
    (noted r fmt args).2 = r.2 := by
  unfold noted; split <;> rfl

theorem color_key_loop_events (env : Env) (obj : Option Obj) (d : Nat) :
    ∀ (count i : Nat) (st : Bool × List Int × List Event),
      Event.load_mask d ∈ (color_key_loop env obj count i st).2.2 →
      Event.load_mask d ∈ st.2.2 := by
  intro count
  induction count with
  | zero => intro i st h; simpa [color_key_loop] using h
  | succ c ih =>
    intro i st h
    obtain ⟨u, ck, log⟩ := st
    rw [color_key_loop] at h
    have := ih _ _ h
    split at this <;> simpa using this

theorem read_samples_no_mask (env : Env) (num : Int) (inl : Bool) (stm : Stream)
    (stride h : Int) (d : Nat) :
    Event.load_mask d ∉ (read_samples env num inl stm stride h).2 := by
  unfold read_samples pad_truncated
  simp only [mem_emit]
  repeat' split
  all_goals simp [raise, ret, emit]

theorem load_samples_no_mask (env : Env) (a : Attrs) (cstm : Option Stream)
    (w h bpc n : Int) (imagemask indexed usecolorkey : Bool) (colorkey : List Int)
    (decode : List Rat) (tile : Pixmap) (d : Nat) :
    Event.load_mask d ∉
      (load_samples env a cstm w h bpc n imagemask indexed usecolorkey colorkey decode
        tile).2 := by
  unfold load_samples
  intro hmem
  rcases mem_and_then _ _ _ hmem with h1 | ⟨stm, -, h2⟩
  · revert h1
    repeat' split
    all_goals simp [raise, ret, emit]
  · rcases mem_and_then _ _ _ h2 with h3 | ⟨samples, -, h4⟩
    · exact read_samples_no_mask _ _ _ _ _ _ _ h3
    · revert h4
      repeat' split
      all_goals simp [raise, ret, emit]

theorem mask_dispatch_events (env : Env) (depth : Nat) (slot : Option Obj)
    (nested : Option (Run Pixmap)) (cstm : Option Stream) (n : Int) (d : Nat)
    (h : Event.load_mask d ∈ (mask_dispatch env depth slot nested cstm n).2) :
    ∃ r, nested = some r ∧ (d = depth + 1 ∨ Event.load_mask d ∈ r.2) := by
  unfold mask_dispatch at h
  split at h
  · rename_i r
    split at h
    · refine ⟨r, rfl, ?_⟩
      rcases (mem_emit _ _ _).1 h with h | h
      · left; simpa using h
      · rcases mem_and_then _ _ _ h with h | ⟨x, -, h⟩
        · right; rwa [noted_log] at h
        · simp [ret] at h
    · simp [ret] at h
  · split at h
    · exfalso
      rcases (mem_emit _ _ _).1 h with h | h
      · have := color_key_loop_events env slot d _ _ _ h
        simp at this
      · simp [ret] at h
    · simp [ret] at h

theorem load_masked_events (env : Env) (depth : Nat) (a : Attrs) (slot : Option Obj)
    (nested : Option (Run Pixmap)) (cstm : Option Stream) (w h bpc n : Int)
    (imagemask interpolate indexed : Bool) (colorspace : Option Colorspace)
    (decode : List Rat) (d : Nat)
    (hm : Event.load_mask d ∈ (load_masked env depth a slot nested cstm w h bpc n imagemask
      interpolate indexed colorspace decode).2) :
    ∃ r, nested = some r ∧ (d = depth + 1 ∨ Event.load_mask d ∈ r.2) := by
  unfold load_masked at hm
  rcases mem_and_then _ _ _ hm with h1 | ⟨x, -, h2⟩
  · exact mask_dispatch_events _ _ _ _ _ _ _ h1
  · exfalso
    rcases (mem_emit _ _ _).1 h2 with h | h
    · simp at h
    · revert h
      split
      · simp [raise]
      · exact load_samples_no_mask _ _ _ _ _ _ _ _ _ _ _ _ _ _

theorem load_validated_events (env : Env) (depth : Nat) (rdb : Option Resources)
    (a : Attrs) (slot : Option Obj) (nested : Option (Run Pixmap))
    (cstm : Option Stream) (forcemask : Bool) (w h bpc : Int)
    (imagemask interpolate : Bool) (d : Nat)
    (hm : Event.load_mask d ∈ (load_validated env depth rdb a slot nested cstm forcemask
      w h bpc imagemask interpolate).2) :
    ∃ r, nested = some r ∧ (d = depth + 1 ∨ Event.load_mask d ∈ r.2) := by
  unfold load_validated at hm
  simp only at hm
  split at hm
  · split at hm
    · rcases (mem_emit _ _ _).1 hm with h | h
      · simp at h
      · revert h
        split
        · simp [raise]
        · exact load_masked_events _ _ _ _ _ _ _ _ _ _ _ _ _ _ _ _
    · exact load_masked_events _ _ _ _ _ _ _ _ _ _ _ _ _ _ _ _ hm
  · exact load_masked_events _ _ _ _ _ _ _ _ _ _ _ _ _ _ _ _ hm

theorem jpx_colorspace_no_mask (env : Env) (a : Attrs) (d : Nat) :
    Event.load_mask d ∉ (jpx_colorspace env a).2 := by
  unfold jpx_colorspace
  repeat' split
  all_goals simp

theorem jpx_mask_events (depth : Nat) (nested : Option (Run Pixmap)) (img : Pixmap)
    (d : Nat) (h : Event.load_mask d ∈ (jpx_mask depth nested img).2) :
    ∃ r, nested = some r ∧ (d = depth + 1 ∨ Event.load_mask d ∈ r.2) := by
  unfold jpx_mask at h
  split at h
  · rename_i r
    refine ⟨r, rfl, ?_⟩
    rcases (mem_emit _ _ _).1 h with h | h
    · left; simpa using h
    · rcases mem_and_then _ _ _ h with h | ⟨x, -, h⟩
      · right; rwa [noted_log] at h
      · simp [ret] at h
  · simp [ret] at h

theorem pdf_load_jpx_image_events (env : Env) (depth : Nat) (a : Attrs)
    (nested : Option (Run Pixmap)) (d : Nat)
    (hm : Event.load_mask d ∈ (pdf_load_jpx_image env depth a nested).2) :
    ∃ r, nested = some r ∧ (d = depth + 1 ∨ Event.load_mask d ∈ r.2) := by
  unfold pdf_load_jpx_image at hm
  rcases (mem_emit _ _ _).1 hm with h | h
  · simp at h
  · revert h
    split
    · simp [raise]
    · intro h
      rcases (mem_emit _ _ _).1 h with h | h
      · exact absurd h (jpx_colorspace_no_mask _ _ _)
      · rcases (mem_emit _ _ _).1 h with h | h
        · simp at h
        · revert h
          split
          · simp [raise]
          · intro h
            rcases mem_and_then _ _ _ h with h | ⟨x, -, h⟩
            · exact jpx_mask_events _ _ _ _ h
            · simp [ret] at h

theorem load_image_body_events (env : Env) (depth : Nat) (rdb : Option Resources)
    (a : Attrs) (slot : Option Obj) (nested nested_jpx : Option (Run Pixmap))
    (cstm : Option Stream) (forcemask : Bool) (d : Nat)
    (hm : Event.load_mask d ∈
      (load_image_body env depth rdb a slot nested nested_jpx cstm forcemask).2) :
    ∃ r, (nested = some r ∨ nested_jpx = some r) ∧
      (d = depth + 1 ∨ Event.load_mask d ∈ r.2) := by
  unfold load_image_body at hm
  split at hm
  · rcases mem_and_then _ _ _ hm with h | ⟨x, -, h⟩
    · rw [noted_log] at h
      obtain ⟨r, hr, hd⟩ := pdf_load_jpx_image_events _ _ _ _ _ h
      exact ⟨r, Or.inr hr, hd⟩
    · exfalso; revert h
      repeat' split
      all_goals simp [raise, ret]
  · simp only at hm
    repeat' split at hm
    all_goals first
      | (exfalso; simp [raise] at hm)
      | (obtain ⟨r, hr, hd⟩ := load_validated_events _ _ _ _ _ _ _ _ _ _ _ _ _ _ hm
         exact ⟨r, Or.inl hr, hd⟩)

theorem load_mask_depth (env : Env) (dict : Descr) :
    ∀ (depth : Nat) (rdb : Option Resources) (cstm : Option Stream) (forcemask : Bool)
      (d : Nat),
      Event.load_mask d ∈ (pdf_load_image_imp env depth rdb dict cstm forcemask).2 →
      depth < d ∧ d ≤ depth + dict.mask_levels := by
  induction dict with
  | plain a v =>
    intro depth rdb cstm forcemask d h
    rw [pdf_load_image_imp] at h
    obtain ⟨r, hr, -⟩ := load_image_body_events _ _ _ _ _ _ _ _ _ _ h
    simp at hr
  | masked a m ih =>
    intro depth rdb cstm forcemask d h
    rw [pdf_load_image_imp] at h
    obtain ⟨r, hr, hd⟩ := load_image_body_events _ _ _ _ _ _ _ _ _ _ h
    simp only [Descr.mask_levels]
    rcases hd with hd | hd
    · omega
    · rcases hr with hr | hr
      · simp only [Option.some.injEq] at hr
        subst hr
        have := ih _ _ _ _ _ hd
        omega
      · simp only [Option.some.injEq] at hr
        subst hr
        have := ih _ _ _ _ _ hd
        omega

theorem load_image_body_checks (env : Env) (depth : Nat) (rdb : Option Resources)
    (a : Attrs) (slot : Option Obj) (nested nested_jpx : Option (Run Pixmap))
    (cstm : Option Stream) (forcemask : Bool)
    (hjpx : pdf_is_jpx_image a.Filter = false) :
    load_image_body env depth rdb a slot nested nested_jpx cstm forcemask =
      if a.Width = 0 then raise (Error.make "image width is zero" [])
      else if a.Height = 0 then raise (Error.make "image height is zero" [])
      else if (if a.ImageMask then 1 else a.BitsPerComponent) = 0 then
        raise (Error.make "image depth is zero" [])
      else if (if a.ImageMask then 1 else a.BitsPerComponent) > 16 then
        raise (Error.make "image depth is too large: %d"
          [if a.ImageMask then 1 else a.BitsPerComponent])
      else if a.Width > 65536 then raise (Error.make "image is too wide" [])
      else if a.Height > 65536 then raise (Error.make "image is too high" [])
      else load_validated env depth rdb a slot nested cstm forcemask a.Width a.Height
        (if a.ImageMask then 1 else a.BitsPerComponent) a.ImageMask a.Interpolate := by
  rw [load_image_body, hjpx, ishl1_16]
  simp only [Bool.false_eq_true, if_false]

theorem mem_and_then_left {α β : Type} (e : Event) (r : Run α) (k : α → Run β)
    (h : e ∈ r.2) : e ∈ (and_then r k).2 := by
  unfold and_then
  split
  · exact h
  · exact (mem_emit _ _ _).2 (Or.inl h)

theorem load_validated_forcemask (env : Env) (depth : Nat) (rdb : Option Resources)
    (a : Attrs) (slot : Option Obj) (r : Run Pixmap) (w h bpc : Int)
    (imagemask interpolate : Bool) :
    Event.load_mask (depth + 1) ∈
      (load_validated env depth rdb a slot (some r) none true w h bpc imagemask
        interpolate).2 := by
  have key : ∀ (n : Int) (indexed : Bool) (cs : Option Colorspace) (decode : List Rat),
      Event.load_mask (depth + 1) ∈
        (load_masked env depth a slot (some r) none w h bpc n imagemask interpolate indexed
          cs decode).2 := by
    intro n indexed cs decode
    unfold load_masked
    apply mem_and_then_left
    simp [mask_dispatch, emit]
  unfold load_validated
  simp only
  split
  · rw [if_neg (by simp)]
    exact key _ _ _ _
  · exact key _ _ _ _

/-- Claim C1.  For a descriptor that is not a JPX image, `pdf_load_image_imp`
reads `w`, `h`, `bpc` (`bpc` replaced by 1 when ImageMask is true) and returns
the error of the first check that holds, in the order `w == 0`, `h == 0`,
`bpc == 0`, `bpc > 16`, `w > 65536`, `h > 65536`; in each case the event log is
empty, so no colorspace was resolved, no mask loaded, no pixmap allocated and
no stream opened.  When none of the six checks holds the run is the rest of
the load (`load_validated`).  The six messages are pairwise distinct. -/
theorem validation_order (env : Env) (depth : Nat) (rdb : Option Resources) (dict : Descr)
    (cstm : Option Stream) (forcemask : Bool)
    (hjpx : pdf_is_jpx_image dict.attrs.Filter = false) :
    let w := dict.attrs.Width
    let h := dict.attrs.Height
    let bpc := if dict.attrs.ImageMask then 1 else dict.attrs.BitsPerComponent
    let run := pdf_load_image_imp env depth rdb dict cstm forcemask
    (w = 0 → run = (Except.error (Error.make "image width is zero" []), [])) ∧
    (w ≠ 0 → h = 0 → run = (Except.error (Error.make "image height is zero" []), [])) ∧
    (w ≠ 0 → h ≠ 0 → bpc = 0 →
      run = (Except.error (Error.make "image depth is zero" []), [])) ∧
    (w ≠ 0 → h ≠ 0 → bpc ≠ 0 → bpc > 16 →
      run = (Except.error (Error.make "image depth is too large: %d" [bpc]), [])) ∧
    (w ≠ 0 → h ≠ 0 → bpc ≠ 0 → bpc ≤ 16 → w > 65536 →
      run = (Except.error (Error.make "image is too wide" []), [])) ∧
    (w ≠ 0 → h ≠ 0 → bpc ≠ 0 → bpc ≤ 16 → w ≤ 65536 → h > 65536 →
      run = (Except.error (Error.make "image is too high" []), [])) ∧
    (w ≠ 0 → h ≠ 0 → bpc ≠ 0 → bpc ≤ 16 → w ≤ 65536 → h ≤ 65536 →
      ∃ nested, run = load_validated env depth rdb dict.attrs dict.slot nested cstm
        forcemask w h bpc dict.attrs.ImageMask dict.attrs.Interpolate) ∧
    ["image width is zero", "image height is zero", "image depth is zero",
      "image depth is too large: %d", "image is too wide", "image is too high"].Nodup := by
  intro w h bpc run
  have hrun : ∃ nested nested_jpx, run = load_image_body env depth rdb dict.attrs dict.slot
      nested nested_jpx cstm forcemask := by
    cases dict with
    | plain a v => exact ⟨none, none, rfl⟩
    | masked a m => exact ⟨_, _, rfl⟩
  obtain ⟨nested, nested_jpx, hrun⟩ := hrun
  have hbody := load_image_body_checks env depth rdb dict.attrs dict.slot nested nested_jpx
    cstm forcemask hjpx
  rw [← hrun] at hbody
  change run = if w = 0 then _ else if h = 0 then _ else if bpc = 0 then _
    else if bpc > 16 then _ else if w > 65536 then _ else if h > 65536 then _ else _
    at hbody
  refine ⟨?_, ?_, ?_, ?_, ?_, ?_, ?_, by decide⟩
  · intro h1; rw [hbody, if_pos h1]; rfl
  · intro h1 h2; rw [hbody, if_neg h1, if_pos h2]; rfl
  · intro h1 h2 h3; rw [hbody, if_neg h1, if_neg h2, if_pos h3]; rfl
  · intro h1 h2 h3 h4; rw [hbody, if_neg h1, if_neg h2, if_neg h3, if_pos h4]; rfl
  · intro h1 h2 h3 h4 h5
    rw [hbody, if_neg h1, if_neg h2, if_neg h3, if_neg (not_lt.mpr h4), if_pos h5]; rfl
  · intro h1 h2 h3 h4 h5 h6
    rw [hbody, if_neg h1, if_neg h2, if_neg h3, if_neg (not_lt.mpr h4),
      if_neg (not_lt.mpr h5), if_pos h6]; rfl
  · intro h1 h2 h3 h4 h5 h6
    refine ⟨nested, ?_⟩
    rw [hbody, if_neg h1, if_neg h2, if_neg h3, if_neg (not_lt.mpr h4),
      if_neg (not_lt.mpr h5), if_neg (not_lt.mpr h6)]

/-- Instance of `validation_order`: width 0 fails first, width 65537 is too
wide, depth 17 is too large, and width 65536 passes validation. -/
theorem validation_order_witness :
    pdf_is_jpx_image gray_attrs.Filter = false ∧
    pdf_load_image_imp sample_env 1 none
        (Descr.plain { gray_attrs with Width := 0, Height := 0 } none) none false
      = (Except.error (Error.make "image width is zero" []), []) ∧
    pdf_load_image_imp sample_env 1 none
        (Descr.plain { gray_attrs with Width := 65537 } none) none false
      = (Except.error (Error.make "image is too wide" []), []) ∧
    pdf_load_image_imp sample_env 1 none
        (Descr.plain { gray_attrs with Width := 65537, BitsPerComponent := 17 } none)
        none false
      = (Except.error (Error.make "image depth is too large: %d" [17]), []) ∧
    (∃ nested, pdf_load_image_imp sample_env 1 none
        (Descr.plain { gray_attrs with Width := 65536 } none) none false
      = load_validated sample_env 1 none { gray_attrs with Width := 65536 } none nested
          none false 65536 2 8 false false) :=
  ⟨by decide,
    (validation_order sample_env 1 none
      (Descr.plain { gray_attrs with Width := 0, Height := 0 } none) none false
      (by decide)).1 rfl,
    (validation_order sample_env 1 none
      (Descr.plain { gray_attrs with Width := 65537 } none) none false
      (by decide)).2.2.2.2.1 (by decide) (by decide) (by decide) (by decide) (by decide),
    (validation_order sample_env 1 none
      (Descr.plain { gray_attrs with Width := 65537, BitsPerComponent := 17 } none)
      none false (by decide)).2.2.2.1 (by decide) (by decide) (by decide) (by decide),
    (validation_order sample_env 1 none
      (Descr.plain { gray_attrs with Width := 65536 } none) none false
      (by decide)).2.2.2.2.2.2.1 (by decide) (by decide) (by decide) (by decide)
      (by decide) (by decide)⟩

/-! ### Claim C3: a force-mask call that nests -/

/-- Claim C3, as stated, fails.  A call of `pdf_load_image_imp` in force-mask
mode on a descriptor whose SMask/Mask is a dictionary makes a nested call
(`load_mask 2`), and `pdf_load_image` on an image whose mask has a mask
reaches nesting depth 3 (`load_mask 3`). -/
theorem forcemask_call_nests :
    Event.load_mask 2 ∈
      (pdf_load_image_imp sample_env 1 none
        (Descr.masked gray_attrs (Descr.plain gray_attrs none)) none true).2 ∧
    Event.load_mask 3 ∈
      (pdf_load_image sample_env
        (Descr.masked gray_attrs
          (Descr.masked gray_attrs (Descr.plain gray_attrs none)))).2 := by
  decide

/-! ### Arithmetic of the sample buffer size -/

theorem wrap32_of_range (x : Int) (h1 : -2147483648 ≤ x) (h2 : x < 2147483648) :
    wrap32 x = x := by
  unfold wrap32; omega

theorem image_stride_exact (w n bpc : Int) (hw1 : 1 ≤ w) (hw2 : w ≤ 65536)
    (hn1 : 1 ≤ n) (hn2 : n ≤ 32) (hb1 : 1 ≤ bpc) (hb2 : bpc ≤ 16) :
    image_stride w n bpc = (w * n * bpc + 7) / 8 ∧
      1 ≤ image_stride w n bpc ∧ image_stride w n bpc ≤ 4194304 := by
  have h1 : 1 ≤ w * n := by nlinarith
  have h2 : w * n ≤ 2097152 := by nlinarith
  have h3 : 1 ≤ w * n * bpc := by nlinarith
  have h4 : w * n * bpc ≤ 33554432 := by nlinarith
  have e : image_stride w n bpc = (w * n * bpc + 7) / 8 := by
    unfold image_stride idiv iadd imul
    rw [wrap32_of_range (w * n) (by omega) (by omega),
      wrap32_of_range (w * n * bpc) (by omega) (by omega),
      wrap32_of_range (w * n * bpc + 7) (by omega) (by omega)]
    exact Int.tdiv_eq_ediv (by omega) (by omega)
  refine ⟨e, ?_, ?_⟩ <;> rw [e] <;> omega

/-- Claim C2 (code defect).  Negative sizes are not rejected: the checks test
`== 0` and the upper bounds only.  For Width = -1, for Height = -1 and for
BitsPerComponent = -8 the run of `pdf_load_image_imp` is the rest of the load
with that negative value, and in the sample environment the pixmap allocation
is requested with width -1 (resp. height -1). -/
theorem negative_size_passes_validation :
    (∀ (env : Env) (depth : Nat) (rdb : Option Resources) (cstm : Option Stream)
        (forcemask : Bool),
      pdf_load_image_imp env depth rdb
          (Descr.plain { gray_attrs with Width := -1 } none) cstm forcemask
        = load_validated env depth rdb { gray_attrs with Width := -1 } none none cstm
            forcemask (-1) 2 8 false false ∧
      pdf_load_image_imp env depth rdb
          (Descr.plain { gray_attrs with Height := -1 } none) cstm forcemask
        = load_validated env depth rdb { gray_attrs with Height := -1 } none none cstm
            forcemask 2 (-1) 8 false false ∧
      pdf_load_image_imp env depth rdb
          (Descr.plain { gray_attrs with BitsPerComponent := -8 } none) cstm forcemask
        = load_validated env depth rdb { gray_attrs with BitsPerComponent := -8 } none none
            cstm forcemask 2 2 (-8) false false) ∧
    Event.new_pixmap (-1) 2 ∈
      (pdf_load_image sample_env (Descr.plain { gray_attrs with Width := -1 } none)).2 ∧
    Event.new_pixmap 2 (-1) ∈
      (pdf_load_image sample_env (Descr.plain { gray_attrs with Height := -1 } none)).2 := by
  refine ⟨?_, by decide, by decide⟩
  intro env depth rdb cstm forcemask
  refine ⟨?_, ?_, ?_⟩ <;>
    (rw [pdf_load_image_imp, load_image_body_checks _ _ _ _ _ _ _ _ _ (by decide)]; rfl)

/-- Claim C10 (code defect).  For the validated sizes w = h = 65536, n = 1,
bpc = 8 the stride is 65536 and the exact byte length is 2^32, but the `int`
product `stride * h` is 0; for w = h = 32768, n = 1, bpc = 16 the exact byte
length is 2^31 and the `int` product is -2^31. -/
theorem byte_length_overflows :
    image_stride 65536 1 8 = 65536 ∧
    exact_byte_length 65536 65536 1 8 = 4294967296 ∧
    imul (image_stride 65536 1 8) 65536 = 0 ∧
    image_stride 32768 1 16 = 65536 ∧
    exact_byte_length 32768 32768 1 16 = 2147483648 ∧
    imul (image_stride 32768 1 16) 32768 = -2147483648 := by
  decide

/-! ### Claim C4: color key masking -/

theorem getD_set_zero (s : List Nat) (a i : Nat) :
    (s.set a 0).getD i 0 = if a = i then 0 else s.getD i 0 := by
  simp only [List.getD_eq_getElem?_getD, List.getElem?_set]
  by_cases h : a = i
  · subst h
    by_cases h2 : a < s.length <;> simp [h2]
  · simp [h]

theorem color_key_test_iff (samples : List Nat) (colorkey : List Int) (p : Nat) :
    ∀ (count k : Nat) (t : Bool),
      color_key_test samples colorkey p count k t = true ↔
        t = true ∧ ∀ j, j < count →
          colorkey.getD ((k + j) * 2) 0 ≤ (samples.getD (p + (k + j)) 0 : Int) ∧
          (samples.getD (p + (k + j)) 0 : Int) ≤ colorkey.getD ((k + j) * 2 + 1) 0 := by
  intro count
  induction count with
  | zero => intro k t; simp [color_key_test]
  | succ c ih =>
    intro k t
    rw [color_key_test, ih]
    constructor
    · rintro ⟨ht, hj⟩
      have hk : ¬ ((samples.getD (p + k) 0 : Int) < colorkey.getD (k * 2) 0 ∨
          (samples.getD (p + k) 0 : Int) > colorkey.getD (k * 2 + 1) 0) := by
        intro hc; rw [if_pos hc] at ht; exact Bool.noConfusion ht
      rw [if_neg hk] at ht
      refine ⟨ht, ?_⟩
      intro j hjlt
      cases j with
      | zero =>
        simp only [Nat.add_zero]
        constructor
        · exact not_lt.mp fun h => hk (Or.inl h)
        · exact not_lt.mp fun h => hk (Or.inr h)
      | succ j =>
        have := hj j (by omega)
        rwa [show k + 1 + j = k + (j + 1) by omega] at this
    · rintro ⟨ht, hj⟩
      have h0 := hj 0 (by omega)
      simp only [Nat.add_zero] at h0
      have hk : ¬ ((samples.getD (p + k) 0 : Int) < colorkey.getD (k * 2) 0 ∨
          (samples.getD (p + k) 0 : Int) > colorkey.getD (k * 2 + 1) 0) := by
        rintro (hc | hc)
        · exact absurd h0.1 (not_le.mpr hc)
        · exact absurd h0.2 (not_le.mpr hc)
      rw [if_neg hk]
      refine ⟨ht, ?_⟩
      intro j hjlt
      have := hj (j + 1) (by omega)
      rwa [show k + (j + 1) = k + 1 + j by omega] at this

theorem color_key_test_eq (samples : List Nat) (colorkey : List Int) (p n : Nat) :
    color_key_test samples colorkey p n 0 true = decide (in_color_key samples colorkey p n) := by
  rw [Bool.eq_iff_iff, color_key_test_iff, decide_eq_true_iff]
  unfold in_color_key
  simp

theorem in_color_key_congr (s s' : List Nat) (colorkey : List Int) (p n : Nat)
    (h : ∀ k, k < n → s.getD (p + k) 0 = s'.getD (p + k) 0) :
    in_color_key s colorkey p n ↔ in_color_key s' colorkey p n := by
  unfold in_color_key
  constructor
  · intro hs k hk; rw [← h k hk]; exact hs k hk
  · intro hs k hk; rw [h k hk]; exact hs k hk

theorem zero_pixel_length (p : Nat) :
    ∀ (count k : Nat) (s : List Nat), (zero_pixel p count k s).length = s.length := by
  intro count
  induction count with
  | zero => intro k s; rfl
  | succ c ih => intro k s; rw [zero_pixel, ih, List.length_set]

theorem zero_pixel_getD (p : Nat) :
    ∀ (count k : Nat) (s : List Nat) (i : Nat),
      (zero_pixel p count k s).getD i 0 =
        if p + k ≤ i ∧ i < p + k + count then 0 else s.getD i 0 := by
  intro count
  induction count with
  | zero =>
    intro k s i
    rw [zero_pixel, if_neg (by omega)]
  | succ c ih =>
    intro k s i
    rw [zero_pixel, ih, getD_set_zero]
    by_cases h1 : p + (k + 1) ≤ i ∧ i < p + (k + 1) + c
    · rw [if_pos h1, if_pos (by omega)]
    · rw [if_neg h1]
      by_cases h2 : p + k = i
      · rw [if_pos h2, if_pos (by omega)]
      · rw [if_neg h2, if_neg (by omega)]

theorem mask_loop_length (n pn : Nat) (colorkey : List Int) :
    ∀ (len p : Nat) (s : List Nat), (mask_loop n pn colorkey len p s).length = s.length := by
  intro len
  induction len with
  | zero => intro p s; rfl
  | succ l ih =>
    intro p s
    rw [mask_loop, ih]
    split
    · exact zero_pixel_length _ _ _ _
    · rfl

theorem mask_loop_getD (n pn : Nat) (colorkey : List Int) :
    ∀ (len p : Nat) (s : List Nat) (i c : Nat), c < pn →
      ((mask_loop n pn colorkey len p s).getD (p + i * pn + c) 0 =
        if i < len ∧ in_color_key s colorkey (p + i * pn) n then 0
        else s.getD (p + i * pn + c) 0) ∧
      ∀ j, j < p → (mask_loop n pn colorkey len p s).getD j 0 = s.getD j 0 := by
  intro len
  induction len with
  | zero => intro p s i c _; simp [mask_loop]
  | succ l ih =>
    intro p s i c hc
    rw [mask_loop, color_key_test_eq]
    -- the buffer after this pixel
    have hs' : ∀ j, (if decide (in_color_key s colorkey p n) = true
          then zero_pixel p pn 0 s else s).getD j 0 =
        if in_color_key s colorkey p n ∧ p ≤ j ∧ j < p + pn then 0 else s.getD j 0 := by
      intro j
      by_cases hk : in_color_key s colorkey p n
      · simp only [hk, decide_True, if_true, true_and]
        rw [zero_pixel_getD]; simp
      · simp [hk]
    constructor
    · cases i with
      | zero =>
        simp only [Nat.zero_mul, Nat.add_zero, Nat.zero_lt_succ, true_and]
        rw [(ih (p + pn) _ 0 c hc).2 (p + c) (by omega), hs']
        by_cases hk : in_color_key s colorkey p n
        · rw [if_pos ⟨hk, by omega, by omega⟩, if_pos hk]
        · rw [if_neg (fun h => hk h.1), if_neg hk]
      | succ i =>
        have e : p + (i + 1) * pn = p + pn + i * pn := by
          rw [Nat.succ_mul]; omega
        rw [e, (ih (p + pn) _ i c hc).1, hs']
        have hcongr : in_color_key (if decide (in_color_key s colorkey p n) = true
              then zero_pixel p pn 0 s else s) colorkey (p + pn + i * pn) n ↔
            in_color_key s colorkey (p + pn + i * pn) n := by
          apply in_color_key_congr
          intro k _
          rw [hs', if_neg (by omega)]
        rw [if_neg (by omega : ¬ (in_color_key s colorkey p n ∧ p ≤ p + pn + i * pn + c ∧
          p + pn + i * pn + c < p + pn))]
        by_cases hk : i < l ∧ in_color_key s colorkey (p + pn + i * pn) n
        · rw [if_pos ⟨hk.1, hcongr.2 hk.2⟩, if_pos ⟨by omega, hk.2⟩]
        · rw [if_neg (fun h => hk ⟨h.1, hcongr.1 h.2⟩),
            if_neg (fun h => hk ⟨by omega, h.2⟩)]
    · intro j hj
      rw [(ih (p + pn) _ 0 c hc).2 j (by omega), hs', if_neg (by omega)]

theorem getElem?_eq_some_getD (l : List Nat) (j : Nat) (h : j < l.length) :
    l[j]? = some (l.getD j 0) := by
  rw [List.getD_eq_getElem?_getD, List.getElem?_eq_getElem h]; rfl

/-- Claim C4.  For a pixmap with `pix.w * pix.h` pixels of `pix.n` bytes each
(the pixel count fitting the 32 bits of `len`), a component count
`0 <= n <= pix.n` and a color key of `2n` integers, `pdf_mask_color_key`
leaves the length of the sample buffer unchanged, sets `has_alpha` to
`pix.n > n`, and for every pixel `i` and byte `c < pix.n` the byte `c` of
pixel `i` is zero when each of the first `n` bytes of the pixel lies in its
inclusive range `colorkey[2k] .. colorkey[2k+1]`, and is unchanged
otherwise. -/
theorem mask_color_key_correct (pix : Pixmap) (n : Int) (colorkey : List Int)
    (hw : 0 ≤ pix.w) (hh : 0 ≤ pix.h) (hfit : pix.w * pix.h < 4294967296)
    (hn0 : 0 ≤ n) (hn : n ≤ pix.n)
    (hlen : (pix.samples.length : Int) = pix.w * pix.h * pix.n)
    (_hck : (colorkey.length : Int) = 2 * n) :
    (pdf_mask_color_key pix n colorkey).samples.length = pix.samples.length ∧
    (pdf_mask_color_key pix n colorkey).has_alpha = decide (pix.n > n) ∧
    (pdf_mask_color_key pix n colorkey).w = pix.w ∧
    (pdf_mask_color_key pix n colorkey).h = pix.h ∧
    (pdf_mask_color_key pix n colorkey).n = pix.n ∧
    ∀ (i c : Nat), (i : Int) < pix.w * pix.h → (c : Int) < pix.n →
      (pdf_mask_color_key pix n colorkey).samples[i * pix.n.toNat + c]? =
        if in_color_key pix.samples colorkey (i * pix.n.toNat) n.toNat then some 0
        else pix.samples[i * pix.n.toNat + c]? := by
  obtain ⟨w, h, pn, samples, alpha, interp, mask⟩ := pix
  simp only [Pixmap.w, Pixmap.h, Pixmap.n, Pixmap.samples] at hw hh hfit hn hlen
  have hwh : 0 ≤ w * h := Int.mul_nonneg hw hh
  have hiter : (imul w h % 4294967296).toNat = (w * h).toNat := by
    unfold imul wrap32
    congr 1
    omega
  simp only [pdf_mask_color_key, Pixmap.w, Pixmap.h, Pixmap.n, Pixmap.samples,
    Pixmap.set_samples, Pixmap.set_has_alpha, Pixmap.has_alpha, hiter]
  refine ⟨mask_loop_length _ _ _ _ _ _, trivial, trivial, trivial, trivial, ?_⟩
  intro i c hi hc
  have hpn : 0 ≤ pn := le_trans hn0 hn
  have hc' : c < pn.toNat := by omega
  have hi' : i < (w * h).toNat := by omega
  have hidx : i * pn.toNat + c < samples.length := by
    have h1 : i * pn.toNat + c < (i + 1) * pn.toNat := by rw [Nat.succ_mul]; omega
    have h2 : (i + 1) * pn.toNat ≤ (w * h).toNat * pn.toNat :=
      Nat.mul_le_mul_right _ (by omega)
    have h3 : ((w * h).toNat * pn.toNat : Nat) = samples.length := by
      have : (((w * h).toNat * pn.toNat : Nat) : Int) = (samples.length : Int) := by
        rw [hlen]; push_cast
        rw [Int.toNat_of_nonneg hwh, Int.toNat_of_nonneg hpn]
      exact_mod_cast this
    omega
  have key := (mask_loop_getD n.toNat pn.toNat colorkey (w * h).toNat 0 samples i c hc').1
  simp only [Nat.zero_add] at key
  rw [getElem?_eq_some_getD _ _ (by rw [mask_loop_length]; exact hidx), key,
    getElem?_eq_some_getD _ _ hidx]
  by_cases hk : in_color_key samples colorkey (i * pn.toNat) n.toNat
  · rw [if_pos ⟨hi', hk⟩, if_pos hk]
  · rw [if_neg (fun hh => hk hh.2), if_neg hk]

/-- Instance of `mask_color_key_correct`: a 2 x 1 pixmap of 2 bytes per pixel
and the key [10, 20] on the first component.  The first pixel has its
component on the lower bound and is zeroed, the second is one unit below the
range and is untouched. -/
theorem mask_color_key_correct_witness :
    (pdf_mask_color_key (Pixmap.mk 2 1 2 [10, 255, 9, 255] false false none) 1
        [10, 20]).samples = [0, 0, 9, 255] ∧
    (pdf_mask_color_key (Pixmap.mk 2 1 2 [10, 255, 9, 255] false false none) 1
        [10, 20]).samples[0 * (2 : Int).toNat + 1]? = some 0 := by
  exact ⟨by decide,
    ((mask_color_key_correct (Pixmap.mk 2 1 2 [10, 255, 9, 255] false false none) 1
      [10, 20] (by decide) (by decide) (by decide) (by decide) (by decide) (by decide)
      (by decide)).2.2.2.2.2 0 1 (by decide) (by decide)).trans (by decide)⟩

/-! ### The SMask/Mask dispatch -/

theorem color_key_loop_spec (env : Env) (obj : Option Obj) :
    ∀ (count i : Nat) (st : Bool × List Int × List Event),
      ((color_key_loop env obj count i st).1 = true ↔
        st.1 = true ∧ ∀ j, j < count → fz_is_int (fz_array_get obj (i + j)) = true) ∧
      (Event.warn "invalid value in color key mask" [] ∈ (color_key_loop env obj count i st).2.2 ↔
        Event.warn "invalid value in color key mask" [] ∈ st.2.2 ∨
          ∃ j, j < count ∧ fz_is_int (fz_array_get obj (i + j)) = false) ∧
      ((∀ e ∈ st.2.2, e = Event.warn "invalid value in color key mask" []) →
        ∀ e ∈ (color_key_loop env obj count i st).2.2,
          e = Event.warn "invalid value in color key mask" []) := by
  intro count
  induction count with
  | zero => intro i st; simp [color_key_loop]
  | succ c ih =>
    intro i st
    obtain ⟨u, ck, log⟩ := st
    rw [color_key_loop]
    by_cases hint : fz_is_int (fz_array_get obj i) = false
    · simp only [hint, if_true]
      obtain ⟨h1, h2, h3⟩ := ih (i + 1) (false, ck ++ [env.fz_to_int (fz_array_get obj i)],
        log ++ [Event.warn "invalid value in color key mask" []])
      refine ⟨?_, ?_, ?_⟩
      · rw [h1]
        constructor
        · rintro ⟨h, -⟩; exact Bool.noConfusion h
        · rintro ⟨-, h⟩
          have := h 0 (by omega)
          rw [Nat.add_zero, hint] at this
          exact Bool.noConfusion this
      · rw [h2]
        constructor
        · intro _; exact Or.inr ⟨0, by omega, by simpa using hint⟩
        · intro _; exact Or.inl (by simp)
      · intro hall
        apply h3
        intro e he
        rcases List.mem_append.1 he with he | he
        · exact hall e he
        · simpa using he
    · have hint' : fz_is_int (fz_array_get obj i) = true := by
        simpa using hint
      simp only [hint', Bool.true_eq_false, if_false]
      obtain ⟨h1, h2, h3⟩ := ih (i + 1) (u, ck ++ [env.fz_to_int (fz_array_get obj i)], log)
      refine ⟨?_, ?_, h3⟩
      · rw [h1]
        constructor
        · rintro ⟨hu, h⟩
          refine ⟨hu, fun j hj => ?_⟩
          cases j with
          | zero => exact hint'
          | succ j =>
            have := h j (by omega)
            rwa [show i + 1 + j = i + (j + 1) by omega] at this
        · rintro ⟨hu, h⟩
          refine ⟨hu, fun j hj => ?_⟩
          have := h (j + 1) (by omega)
          rwa [show i + (j + 1) = i + 1 + j by omega] at this
      · rw [h2]
        constructor
        · rintro (h | ⟨j, hj, hf⟩)
          · exact Or.inl h
          · exact Or.inr ⟨j + 1, by omega, by rwa [show i + (j + 1) = i + 1 + j by omega]⟩
        · rintro (h | ⟨j, hj, hf⟩)
          · exact Or.inl h
          · cases j with
            | zero => rw [Nat.add_zero, hint'] at hf; exact Bool.noConfusion hf
            | succ j =>
              exact Or.inr ⟨j, by omega, by rwa [show i + 1 + j = i + (j + 1) by omega]⟩

/-- The SMask/Mask dispatch on its own.  On an array it never fails and loads
no mask; it warns exactly when some entry among `0 .. 2n-1` is not an integer
(or missing), gives nothing but that warning, and sets `usecolorkey` exactly
when all those entries are integers.  In every other case the flag is off. -/
theorem color_key_dispatch (env : Env) (depth : Nat) (slot : Option Obj)
    (nested : Option (Run Pixmap)) (cstm : Option Stream) (n : Int)
    (hn0 : 0 ≤ n) (hn : n ≤ 1073741823) :
    (nested = none → fz_is_array slot = true →
      ∃ usecolorkey colorkey warnings,
        mask_dispatch env depth slot nested cstm n =
          (Except.ok (none, usecolorkey, colorkey), warnings) ∧
        (Event.warn "invalid value in color key mask" [] ∈ warnings ↔
          ∃ i : Nat, (i : Int) < 2 * n ∧ fz_is_int (fz_array_get slot i) = false) ∧
        (usecolorkey = false ↔
          ∃ i : Nat, (i : Int) < 2 * n ∧ fz_is_int (fz_array_get slot i) = false) ∧
        ∀ e ∈ warnings, e = Event.warn "invalid value in color key mask" []) ∧
    (∀ mask usecolorkey colorkey log,
      mask_dispatch env depth slot nested cstm n =
          (Except.ok (mask, usecolorkey, colorkey), log) →
        (usecolorkey = true ↔
          nested = none ∧ fz_is_array slot = true ∧
            ∀ i : Nat, (i : Int) < 2 * n → fz_is_int (fz_array_get slot i) = true) ∧
        (mask.isSome = true → usecolorkey = false) ∧
        (nested ≠ none → usecolorkey = false)) := by
  have himul : (imul n 2).toNat = (2 * n).toNat := by
    rw [imul, wrap32_of_range _ (by omega) (by omega), mul_comm]
  have hlt : ∀ i : Nat, i < (2 * n).toNat ↔ (i : Int) < 2 * n := by
    intro i; omega
  obtain ⟨hs1, hs2, hs3⟩ := color_key_loop_spec env slot (2 * n).toNat 0 (true, [], [])
  simp only [Nat.zero_add, true_and, List.not_mem_nil, false_or, hlt] at hs1 hs2
  have hscan : ∀ (harr : fz_is_array slot = true),
      mask_dispatch env depth slot none cstm n =
        (Except.ok (none, (color_key_scan env slot n).1, (color_key_scan env slot n).2.1),
          (color_key_scan env slot n).2.2) := by
    intro harr
    simp [mask_dispatch, harr, emit, ret]
  have hscan_def : color_key_scan env slot n =
      color_key_loop env slot (2 * n).toNat 0 (true, [], []) := by
    rw [color_key_scan, himul]
  constructor
  · intro hnone harr
    subst hnone
    refine ⟨_, _, _, hscan harr, ?_, ?_, ?_⟩
    · rw [hscan_def]; exact hs2
    · rw [hscan_def, ← Bool.not_eq_true, hs1]
      constructor
      · intro h
        by_contra hc
        apply h
        intro i hi
        by_contra hi2
        exact hc ⟨i, hi, by simpa using hi2⟩
      · rintro ⟨i, hi, hf⟩ h
        rw [h i hi] at hf
        exact Bool.noConfusion hf
    · rw [hscan_def]
      exact hs3 (by simp)
  · intro mask usecolorkey colorkey log hrun
    cases nested with
    | some r =>
      have hu : usecolorkey = false := by
        unfold mask_dispatch at hrun
        cases cstm with
        | none =>
          simp only [emit, and_then] at hrun
          split at hrun
          · simp at hrun
          · simp [ret] at hrun
            exact hrun.1.2.1
        | some c =>
          simp [ret] at hrun
          exact hrun.1.2.1
      refine ⟨?_, fun _ => hu, fun _ => hu⟩
      rw [hu]; simp
    | none =>
      by_cases harr : fz_is_array slot = true
      · rw [hscan harr] at hrun
        simp only [Prod.mk.injEq, Except.ok.injEq] at hrun
        obtain ⟨⟨hm, hu, -⟩, -⟩ := hrun
        refine ⟨?_, ?_, fun h => absurd rfl h⟩
        · rw [← hu, hscan_def, hs1]; simp [harr]
        · intro h; rw [← hm] at h; exact Bool.noConfusion h
      · have hu : usecolorkey = false := by
          simp [mask_dispatch, harr, ret] at hrun
          exact hrun.1.2.1
        refine ⟨?_, fun _ => hu, fun _ => hu⟩
        rw [hu]; simp [harr]

/-! ### The decode array -/

theorem max_index_value (bpc : Int) (hb1 : 1 ≤ bpc) (hb2 : bpc ≤ 16) :
    isub (ishl1 bpc) 1 = 2 ^ bpc.toNat - 1 := by
  have h1 : (2 : Int) ^ bpc.toNat ≤ 2 ^ 16 :=
    pow_le_pow_right₀ (by norm_num) (by omega)
  have h0 : (0 : Int) < 2 ^ bpc.toNat := by positivity
  have h16 : (2 : Int) ^ 16 = 65536 := by norm_num
  rw [isub, ishl1, wrap32_of_range (2 ^ bpc.toNat) (by omega) (by omega),
    wrap32_of_range _ (by omega) (by omega)]

/-- The decode array on its own, for a component count `n` (with `2n` an
`int`) and `bpc` in [1,16]: `2n` entries; without a Decode entry they are
`0, 1` per component, or `0, 2^bpc - 1` when `indexed`; with a Decode entry,
entry `i` is the `i`-th array entry read by `fz_to_real`. -/
theorem image_decode_spec (env : Env) (obj : Option Obj) (indexed : Bool) (bpc n : Int)
    (hb1 : 1 ≤ bpc) (hb2 : bpc ≤ 16) (hn0 : 0 ≤ n) (hn : n ≤ 1073741823) :
    (image_decode env obj indexed bpc n).length = (2 * n).toNat ∧
    (obj = none → indexed = false → ∀ k : Nat, (k : Int) < n →
      (image_decode env obj indexed bpc n)[2 * k]? = some 0 ∧
      (image_decode env obj indexed bpc n)[2 * k + 1]? = some 1) ∧
    (obj = none → indexed = true → ∀ k : Nat, (k : Int) < n →
      (image_decode env obj indexed bpc n)[2 * k]? = some 0 ∧
      (image_decode env obj indexed bpc n)[2 * k + 1]? = some ((2 : Rat) ^ bpc.toNat - 1)) ∧
    (∀ o, obj = some o → ∀ i : Nat, (i : Int) < 2 * n →
      (image_decode env obj indexed bpc n)[i]? =
        some (env.fz_to_real (fz_array_get (some o) i))) := by
  have himul : (imul n 2).toNat = (2 * n).toNat := by
    rw [imul, wrap32_of_range _ (by omega) (by omega), mul_comm]
  have heven : ∀ k : Nat, (2 * k) &&& 1 = 0 := by
    intro k; rw [Nat.and_one_is_mod]; omega
  have hodd : ∀ k : Nat, (2 * k + 1) &&& 1 = 1 := by
    intro k; rw [Nat.and_one_is_mod]; omega
  refine ⟨?_, ?_, ?_, ?_⟩
  · unfold image_decode
    cases obj <;> simp [himul]
  · intro hobj hidx k hk
    subst hobj; subst hidx
    have h1 : 2 * k < (2 * n).toNat := by omega
    have h2 : 2 * k + 1 < (2 * n).toNat := by omega
    simp only [image_decode, himul, List.getElem?_map, List.getElem?_range h1,
      List.getElem?_range h2, Option.map_some', heven, hodd]
    simp
  · intro hobj hidx k hk
    subst hobj; subst hidx
    have h1 : 2 * k < (2 * n).toNat := by omega
    have h2 : 2 * k + 1 < (2 * n).toNat := by omega
    simp only [image_decode, himul, List.getElem?_map, List.getElem?_range h1,
      List.getElem?_range h2, Option.map_some', heven, hodd, max_index_value bpc hb1 hb2]
    simp
  · intro o hobj i hi
    subst hobj
    have h1 : i < (2 * n).toNat := by omega
    simp only [image_decode, himul, List.getElem?_map, List.getElem?_range h1,
      Option.map_some']

/-! ### Claim C6: reading and padding the samples -/

theorem getD_set (s : List Nat) (a v i : Nat) :
    (s.set a v).getD i 0 = if a = i ∧ a < s.length then v else s.getD i 0 := by
  simp only [List.getD_eq_getElem?_getD, List.getElem?_set]
  by_cases h : a = i
  · subst h
    by_cases h2 : a < s.length
    · simp [h2]
    · simp [h2, List.getElem?_eq_none (Nat.le_of_not_lt h2)]
  · simp [h]

theorem ext_getD (l1 l2 : List Nat) (hlen : l1.length = l2.length)
    (h : ∀ i, l1.getD i 0 = l2.getD i 0) : l1 = l2 := by
  apply List.ext_getElem hlen
  intro i h1 h2
  have := h i
  rwa [List.getD_eq_getElem _ _ h1, List.getD_eq_getElem _ _ h2] at this

theorem memset_length (c : Nat) :
    ∀ (count : Nat) (s : List Nat) (off : Nat), (memset c s off count).length = s.length := by
  intro count
  induction count with
  | zero => intro s off; rfl
  | succ k ih => intro s off; rw [memset, ih, List.length_set]

theorem memset_getD (c : Nat) :
    ∀ (count : Nat) (s : List Nat) (off i : Nat),
      (memset c s off count).getD i 0 =
        if off ≤ i ∧ i < off + count ∧ i < s.length then c else s.getD i 0 := by
  intro count
  induction count with
  | zero => intro s off i; rw [memset, if_neg (by omega)]
  | succ k ih =>
    intro s off i
    rw [memset, ih, getD_set, List.length_set]
    by_cases h1 : off + 1 ≤ i ∧ i < off + 1 + k ∧ i < s.length
    · rw [if_pos h1, if_pos (by omega)]
    · rw [if_neg h1]
      by_cases h2 : off = i ∧ off < s.length
      · rw [if_pos h2, if_pos (by omega)]
      · rw [if_neg h2, if_neg (by omega)]

theorem getD_append_replicate (got : List Nat) (k i : Nat) :
    (got ++ List.replicate k 0).getD i 0 = got.getD i 0 := by
  simp only [List.getD_eq_getElem?_getD]
  by_cases h : i < got.length
  · rw [List.getElem?_append_left h]
  · rw [List.getElem?_append_right (by omega), List.getElem?_eq_none (by omega : got.length ≤ i),
      List.getElem?_replicate]
    split <;> rfl

theorem read_samples_padded (env : Env) (num : Int) (inl : Bool) (stm : Stream)
    (stride h : Int) (hs : 0 ≤ stride) (hh : 0 ≤ h) (hfit : stride * h < 2147483648)
    (halloc : env.fz_calloc_no_abort h stride = true) (hok : stm.error = none) :
    (read_samples env num inl stm stride h).1 =
      Except.ok (stm.data.take (stride * h).toNat ++
        List.replicate ((stride * h).toNat - (stm.data.take (stride * h).toNat).length) 0) ∧
    (Event.warn "padding truncated image (%d 0 R)" [num] ∈
        (read_samples env num inl stm stride h).2 ↔
      (stm.data.take (stride * h).toNat).length < (stride * h).toNat) := by
  have hprod : 0 ≤ stride * h := Int.mul_nonneg hs hh
  have himul1 : imul h stride = stride * h := by
    rw [imul, wrap32_of_range _ (by rw [mul_comm]; omega) (by rw [mul_comm]; omega), mul_comm]
  have himul2 : imul stride h = stride * h := by
    rw [imul, wrap32_of_range _ (by omega) (by omega)]
  generalize hT : (stride * h).toNat = T
  have hTi : stride * h = (T : Int) := by omega
  have hcomm : (h * stride).toNat = T := by rw [mul_comm]; exact hT
  generalize hgot : stm.data.take T = got
  have hgl : got.length ≤ T := by rw [← hgot, List.length_take]; omega
  have hread : fz_read stm (T : Int) =
      ((got.length : Int), got, { stm with data := stm.data.drop T }) := by
    simp [fz_read, hok, hgot]
  have hbuf : got ++ List.drop got.length (List.replicate T 0) =
      got ++ List.replicate (T - got.length) 0 := by
    rw [List.drop_replicate]
  have hwarn : Event.warn "padding truncated image (%d 0 R)" [num] ∉
      (if inl = true then
        (if (fz_read { stm with data := stm.data.drop T } 512).1 < 0
          then [Event.error_handle "ignoring error at end of image"] else []) ++
        (if (fz_read { stm with data := stm.data.drop T } 512).1 > 0
          then [Event.warn "ignoring garbage at end of image" []] else [])
      else []) := by
    repeat' split
    all_goals simp
  have hnn : ¬ ((got.length : Int) < 0) := by omega
  by_cases hshort : got.length < T
  · have hpad : pad_truncated num (got ++ List.replicate (T - got.length) 0)
        (got.length : Int) stride h =
        (got ++ List.replicate (T - got.length) 0,
          [Event.warn "padding truncated image (%d 0 R)" [num]]) := by
      rw [pad_truncated, himul2, hTi, if_pos (by omega)]
      congr 1
      apply ext_getD
      · rw [memset_length]
      · intro i
        rw [memset_getD]
        split
        · rename_i hc
          rw [getD_append_replicate, List.getD_eq_default _ _ (by simpa using hc.1)]
        · rfl
    constructor
    · simp only [read_samples, halloc, Bool.true_eq_false, if_false, himul1, hTi, hread, hcomm,
        hbuf, hpad]
      simp [emit, ret, hnn]
    · simp only [read_samples, halloc, Bool.true_eq_false, if_false, himul1, hTi, hread, hcomm,
        hbuf, hpad]
      simp only [if_neg hnn]
      simp [emit, ret, hshort, hwarn]
  · have hpad : pad_truncated num (got ++ List.replicate (T - got.length) 0)
        (got.length : Int) stride h = (got ++ List.replicate (T - got.length) 0, []) := by
      rw [pad_truncated, himul2, hTi, if_neg (by omega)]
    constructor
    · simp only [read_samples, halloc, Bool.true_eq_false, if_false, himul1, hTi, hread, hcomm,
        hbuf, hpad]
      simp [emit, ret, hnn]
    · simp only [read_samples, halloc, Bool.true_eq_false, if_false, himul1, hTi, hread, hcomm,
        hbuf, hpad]
      simp only [if_neg hnn]
      simp [emit, ret, hshort, hwarn]

/-! ### The JPX path -/

theorem pdf_load_image_imp_jpx (env : Env) (depth : Nat) (rdb : Option Resources)
    (dict : Descr) (cstm : Option Stream) (forcemask : Bool)
    (hjpx : pdf_is_jpx_image dict.attrs.Filter = true) :
    pdf_load_image_imp env depth rdb dict cstm forcemask =
      and_then (noted (jpx_call env depth dict) "cannot load jpx image" []) fun tile =>
        if forcemask then
          if tile.n ≠ 2 then raise (Error.make "softmask must be grayscale" [])
          else ret (env.fz_alpha_from_gray tile 1)
        else ret tile := by
  cases dict with
  | plain a v =>
    simp only [Descr.attrs] at hjpx
    rw [pdf_load_image_imp, load_image_body, if_pos hjpx, jpx_call]
  | masked a m =>
    simp only [Descr.attrs] at hjpx
    rw [pdf_load_image_imp, load_image_body, if_pos hjpx, jpx_call]

/-! ### Inversion of image masks -/

theorem bnot8_eq (b : Nat) (h : b < 256) : bnot8 b = 255 - b := by
  unfold bnot8; omega

theorem invert_loop_length :
    ∀ (count i : Nat) (s : List Nat), (invert_loop count i s).length = s.length := by
  intro count
  induction count with
  | zero => intro i s; rfl
  | succ k ih => intro i s; rw [invert_loop, ih, List.length_set]

theorem invert_loop_getD :
    ∀ (count i : Nat) (s : List Nat) (j : Nat),
      (invert_loop count i s).getD j 0 =
        if i ≤ j ∧ j < i + count ∧ j < s.length then bnot8 (s.getD j 0) else s.getD j 0 := by
  intro count
  induction count with
  | zero => intro i s j; rw [invert_loop, if_neg (by omega)]
  | succ k ih =>
    intro i s j
    rw [invert_loop, ih, getD_set, List.length_set]
    by_cases h1 : i + 1 ≤ j ∧ j < i + 1 + k ∧ j < s.length
    · rw [if_pos h1, if_neg (by omega), if_pos (by omega)]
    · rw [if_neg h1]
      by_cases h2 : i = j ∧ i < s.length
      · rw [if_pos h2, if_pos (by omega), h2.1]
      · rw [if_neg h2, if_neg (by omega)]

theorem invert_loop_all (s : List Nat) (hbyte : ∀ b ∈ s, b < 256) :
    invert_loop s.length 0 s = s.map fun b => 255 - b := by
  apply ext_getD
  · rw [invert_loop_length, List.length_map]
  · intro j
    rw [invert_loop_getD]
    by_cases hj : j < s.length
    · rw [if_pos (by omega), List.getD_eq_getElem _ _ hj,
        List.getD_eq_getElem _ _ (by rw [List.length_map]; exact hj), List.getElem_map]
      exact bnot8_eq _ (hbyte _ (List.getElem_mem _))
    · rw [if_neg (by omega), List.getD_eq_default _ _ (by omega),
        List.getD_eq_default _ _ (by rw [List.length_map]; omega)]

/-- The inversion step on its own, for an image mask of validated size (one
component at 1 bit, so `stride = (w + 7) / 8`) and a buffer of `stride * h`
bytes: the result is the bytewise complement `255 - b`. -/
theorem invert_image_mask_spec (w h : Int) (samples : List Nat)
    (hw1 : 1 ≤ w) (hw2 : w ≤ 65536) (hh1 : 1 ≤ h) (hh2 : h ≤ 65536)
    (hlen : (samples.length : Int) = image_stride w 1 1 * h)
    (hbyte : ∀ b ∈ samples, b < 256) :
    invert_image_mask true samples (image_stride w 1 1) h = samples.map (fun b => 255 - b) ∧
    (∀ i : Nat, i < samples.length →
      (invert_image_mask true samples (image_stride w 1 1) h)[i]? =
        some (255 - samples.getD i 0)) ∧
    (samples = List.replicate samples.length 0 →
      invert_image_mask true samples (image_stride w 1 1) h =
        List.replicate samples.length 255) ∧
    (samples = List.replicate samples.length 255 →
      invert_image_mask true samples (image_stride w 1 1) h =
        List.replicate samples.length 0) ∧
    invert_image_mask true (invert_image_mask true samples (image_stride w 1 1) h)
      (image_stride w 1 1) h = samples ∧
    ∀ stride h : Int, invert_image_mask false samples stride h = samples := by
  obtain ⟨he, hs1, -⟩ := image_stride_exact w 1 1 hw1 hw2 (by decide) (by decide) (by decide)
    (by decide)
  have hs2 : image_stride w 1 1 ≤ 8192 := by rw [he]; omega
  generalize image_stride w 1 1 = stride at hlen hs1 hs2
  have hprod : 0 ≤ stride * h := by positivity
  have hprod2 : stride * h ≤ 8192 * 65536 := by nlinarith
  have himul : (imul h stride).toNat = samples.length := by
    rw [imul, wrap32_of_range _ (by rw [mul_comm]; omega) (by rw [mul_comm]; omega),
      mul_comm, ← hlen]
    rfl
  have hinv : ∀ s : List Nat, s.length = samples.length → (∀ b ∈ s, b < 256) →
      invert_image_mask true s stride h = s.map fun b => 255 - b := by
    intro s hsl hsb
    rw [invert_image_mask, if_pos rfl]
    simp only [himul, ← hsl]
    exact invert_loop_all s hsb
  have hmain := hinv samples rfl hbyte
  refine ⟨hmain, ?_, ?_, ?_, ?_, fun _ _ => rfl⟩
  · intro i hi
    rw [hmain, List.getElem?_map, List.getElem?_eq_getElem hi, List.getD_eq_getElem _ _ hi]
    rfl
  · intro hz
    rw [hmain]
    conv_lhs => rw [hz]
    rw [List.map_replicate]
  · intro hz
    rw [hmain]
    conv_lhs => rw [hz]
    rw [List.map_replicate]
  · rw [hmain, hinv _ (by rw [List.length_map])
      (by intro b hb; rw [List.mem_map] at hb; obtain ⟨a, -, rfl⟩ := hb; omega),
      List.map_map]
    conv_rhs => rw [← List.map_id samples]
    apply List.map_congr_left
    intro b hb
    have := hbyte b hb
    simp only [Function.comp, id]
    omega

/-- Claim C6 (code defect, the one of C10).  In the sample environment the
stream of object 3 holds 3 bytes of value 7.  On the 2 x 2 image of 8 bits the
short read is padded, [7, 7, 7, 0], with a warning.  For the validated image
w = h = 32768, bpc = 16, n = 1 the stride is 65536 and `stride * h = 2^31`
does not fit an `int`: the count passed to `fz_read` and the bound of the
truncation test are the wrapped value -2147483648; the read is short, yet no
"padding truncated image" warning is given and the buffer does not start with
the bytes of the stream.  For w = h = 65536, bpc = 8, n = 1 the wrapped value
is 0, with the same outcome. -/
theorem truncated_read_overflow :
    pdf_load_image sample_env (Descr.plain gray_attrs none) =
      (Except.ok (Pixmap.mk 2 2 2 [7, 7, 7, 0] true false none),
        [Event.find_item 3, Event.load_colorspace (Obj.scalar (Scalar.name "DeviceGray")),
          Event.new_pixmap 2 2, Event.open_stream 3 0, Event.calloc 2 2, Event.read 4,
          Event.warn "padding truncated image (%d 0 R)" [3], Event.store_item 3]) ∧
    image_stride 32768 1 16 = 65536 ∧
    pdf_load_image sample_env
        (Descr.plain
          { gray_attrs with Width := 32768, Height := 32768, BitsPerComponent := 16 } none) =
      (Except.ok (Pixmap.mk 32768 32768 2 (List.replicate 2147483648 0) true false none),
        [Event.find_item 3, Event.load_colorspace (Obj.scalar (Scalar.name "DeviceGray")),
          Event.new_pixmap 32768 32768, Event.open_stream 3 0, Event.calloc 32768 65536,
          Event.read (-2147483648), Event.store_item 3]) ∧
    image_stride 65536 1 8 = 65536 ∧
    pdf_load_image sample_env
        (Descr.plain { gray_attrs with Width := 65536, Height := 65536 } none) =
      (Except.ok (Pixmap.mk 65536 65536 2 (List.replicate 4294967296 0) true false none),
        [Event.find_item 3, Event.load_colorspace (Obj.scalar (Scalar.name "DeviceGray")),
          Event.new_pixmap 65536 65536, Event.open_stream 3 0, Event.calloc 65536 65536,
          Event.read 0, Event.store_item 3]) :=
  ⟨rfl, by decide, rfl, by decide, rfl⟩

/-! ### The stages of a load that succeeds -/

theorem pdf_load_image_imp_body (env : Env) (depth : Nat) (rdb : Option Resources)
    (dict : Descr) (cstm : Option Stream) (forcemask : Bool) :
    pdf_load_image_imp env depth rdb dict cstm forcemask =
      load_image_body env depth rdb dict.attrs dict.slot (mask_call env depth rdb dict)
        (mask_call env depth none dict) cstm forcemask := by
  cases dict <;> rfl

theorem and_then_ok {α β : Type} (r : Run α) (k : α → Run β) (x : α) (log : List Event)
    (h : r = (Except.ok x, log)) : and_then r k = emit log (k x) := by
  subst h; rfl

theorem load_validated_stage (env : Env) (depth : Nat) (rdb : Option Resources) (a : Attrs)
    (slot : Option Obj) (nested : Option (Run Pixmap)) (cstm : Option Stream)
    (forcemask : Bool) (w h bpc : Int) (imagemask interpolate : Bool) :
    load_validated env depth rdb a slot nested cstm forcemask w h bpc imagemask interpolate =
      and_then (colorspace_stage env rdb a imagemask forcemask) fun cs =>
        load_masked env depth a slot nested cstm w h bpc (colorspace_n cs) imagemask
          interpolate (colorspace_indexed cs) cs
          (image_decode env a.Decode (colorspace_indexed cs) bpc (colorspace_n cs)) := by
  unfold load_validated colorspace_stage
  simp only
  cases (a.ColorSpace <|> a.CS) with
  | none => simp [and_then, emit, ret, colorspace_n, colorspace_indexed]
  | some obj =>
    simp only
    by_cases hc : imagemask = false ∧ forcemask = false
    · simp only [if_pos hc]
      generalize (if fz_is_name obj = true then
          match rdb with
          | some r =>
            match List.lookup (fz_to_name (some obj)) r.ColorSpace with
            | some res => res
            | none => obj
          | none => obj
        else obj) = o
      cases env.pdf_load_colorspace o with
      | error e => simp [and_then, emit, raise]
      | ok c => simp [and_then, emit, ret, colorspace_n, colorspace_indexed]
    · simp only [if_neg hc]
      simp [and_then, emit, ret, colorspace_n, colorspace_indexed]

theorem load_samples_run (env : Env) (a : Attrs) (cstm : Option Stream) (w h bpc n : Int)
    (imagemask indexed usecolorkey : Bool) (colorkey : List Int) (decode : List Rat)
    (tile : Pixmap) (stm : Stream) (samples : List Nat) (rlog : List Event)
    (hstm : image_stream env a cstm (image_stride w n bpc) h = Except.ok stm)
    (hread : read_samples env a.num cstm.isSome stm (image_stride w n bpc) h =
      (Except.ok samples, rlog)) :
    load_samples env a cstm w h bpc n imagemask indexed usecolorkey colorkey decode tile =
      (Except.ok
        (if indexed then
          env.pdf_expand_indexed_pixmap
            (env.fz_decode_indexed_tile
              (if usecolorkey then
                pdf_mask_color_key
                  (env.fz_unpack_tile tile
                    (invert_image_mask imagemask samples (image_stride w n bpc) h) n bpc
                    (image_stride w n bpc) indexed) n colorkey
              else
                env.fz_unpack_tile tile
                  (invert_image_mask imagemask samples (image_stride w n bpc) h) n bpc
                  (image_stride w n bpc) indexed)
              decode (isub (ishl1 bpc) 1))
        else
          env.fz_decode_tile
            (if usecolorkey then
              pdf_mask_color_key
                (env.fz_unpack_tile tile
                  (invert_image_mask imagemask samples (image_stride w n bpc) h) n bpc
                  (image_stride w n bpc) indexed) n colorkey
            else
              env.fz_unpack_tile tile
                (invert_image_mask imagemask samples (image_stride w n bpc) h) n bpc
                (image_stride w n bpc) indexed)
            decode),
        image_stream_event a cstm (image_stride w n bpc) h :: rlog) := by
  unfold load_samples
  cases cstm with
  | some c =>
    simp only [image_stream, Except.ok.injEq] at hstm
    subst hstm
    simp only [Option.isSome] at hread
    cases indexed <;> cases usecolorkey <;>
      simp [and_then, emit, ret, hread, image_stream_event]
  | none =>
    simp only [image_stream] at hstm
    simp only [Option.isSome] at hread
    cases indexed <;> cases usecolorkey <;>
      simp [and_then, emit, ret, hstm, hread, image_stream_event]

theorem load_validated_run (env : Env) (depth : Nat) (rdb : Option Resources) (a : Attrs)
    (slot : Option Obj) (nested : Option (Run Pixmap)) (cstm : Option Stream)
    (forcemask : Bool) (w h bpc : Int) (imagemask interpolate : Bool)
    (cs : Option Colorspace) (cslog : List Event) (mask : Option Pixmap)
    (usecolorkey : Bool) (colorkey : List Int) (mlog : List Event) (tile : Pixmap)
    (hcs : colorspace_stage env rdb a imagemask forcemask = (Except.ok cs, cslog))
    (hdisp : mask_dispatch env depth slot nested cstm (colorspace_n cs) =
      (Except.ok (mask, usecolorkey, colorkey), mlog))
    (halloc : env.fz_new_pixmap_with_limit cs w h = some tile) :
    load_validated env depth rdb a slot nested cstm forcemask w h bpc imagemask interpolate =
      emit (cslog ++ (mlog ++ [Event.new_pixmap w h]))
        (load_samples env a cstm w h bpc (colorspace_n cs) imagemask (colorspace_indexed cs)
          usecolorkey colorkey
          (image_decode env a.Decode (colorspace_indexed cs) bpc (colorspace_n cs))
          ((tile.set_mask mask).set_interpolate interpolate)) := by
  rw [load_validated_stage, and_then_ok _ _ _ _ hcs, load_masked, and_then_ok _ _ _ _ hdisp]
  simp [halloc, emit]

theorem pdf_load_image_imp_validated (env : Env) (depth : Nat) (rdb : Option Resources)
    (dict : Descr) (cstm : Option Stream) (forcemask : Bool)
    (hjpx : pdf_is_jpx_image dict.attrs.Filter = false)
    (hw0 : dict.attrs.Width ≠ 0) (hw : dict.attrs.Width ≤ 65536)
    (hh0 : dict.attrs.Height ≠ 0) (hh : dict.attrs.Height ≤ 65536)
    (hb0 : (if dict.attrs.ImageMask then 1 else dict.attrs.BitsPerComponent) ≠ 0)
    (hb : (if dict.attrs.ImageMask then 1 else dict.attrs.BitsPerComponent) ≤ 16) :
    pdf_load_image_imp env depth rdb dict cstm forcemask =
      load_validated env depth rdb dict.attrs dict.slot (mask_call env depth rdb dict) cstm
        forcemask dict.attrs.Width dict.attrs.Height
        (if dict.attrs.ImageMask then 1 else dict.attrs.BitsPerComponent)
        dict.attrs.ImageMask dict.attrs.Interpolate := by
  rw [pdf_load_image_imp_body, load_image_body_checks _ _ _ _ _ _ _ _ _ hjpx, if_neg hw0,
    if_neg hh0, if_neg hb0, if_neg (not_lt.mpr hb), if_neg (not_lt.mpr hw),
    if_neg (not_lt.mpr hh)]

/-! ### Claim C3: number and depth of nested calls -/

theorem nested_calls_append (l1 l2 : List Event) :
    nested_calls (l1 ++ l2) = nested_calls l1 + nested_calls l2 := by
  unfold nested_calls; exact List.countP_append _ _ _

theorem nested_calls_zero (l : List Event) (h : ∀ d, Event.load_mask d ∉ l) :
    nested_calls l = 0 := by
  unfold nested_calls
  rw [List.countP_eq_zero]
  intro e he hp
  cases e <;> simp [is_load_mask] at hp
  exact h _ he

theorem nested_calls_emit {α : Type} (es : List Event) (r : Run α) :
    nested_calls (emit es r).2 = nested_calls es + nested_calls r.2 :=
  nested_calls_append _ _

theorem nested_calls_and_then {α β : Type} (r : Run α) (k : α → Run β) (c : Nat)
    (hk : ∀ x, nested_calls (k x).2 ≤ c) :
    nested_calls (and_then r k).2 ≤ nested_calls r.2 + c := by
  unfold and_then
  split
  · exact Nat.le_add_right _ _
  · rename_i x _
    rw [nested_calls_emit]
    exact Nat.add_le_add_left (hk x) _

theorem nested_calls_noted {α : Type} (r : Run α) (fmt : String) (args : List Int) :
    nested_calls (noted r fmt args).2 = nested_calls r.2 := by
  rw [noted_log]

theorem mask_dispatch_calls (env : Env) (depth : Nat) (slot : Option Obj)
    (nested : Option (Run Pixmap)) (cstm : Option Stream) (n : Int) :
    nested_calls (mask_dispatch env depth slot nested cstm n).2 ≤ nested_bound nested := by
  unfold mask_dispatch
  split
  · rename_i r
    split
    · rw [nested_calls_emit]
      have := nested_calls_and_then (noted r "cannot load image mask/softmask" [])
        (fun mask => (ret (some mask, false, []) : Run (Option Pixmap × Bool × List Int))) 0
        (fun _ => Nat.le_of_eq rfl)
      rw [nested_calls_noted] at this
      simp only [nested_bound]
      have h1 : nested_calls [Event.load_mask (depth + 1)] = 1 := rfl
      omega
    · exact Nat.zero_le _
  · apply Nat.le_of_eq
    apply nested_calls_zero
    intro d h
    split at h
    · rcases (mem_emit _ _ _).1 h with h | h
      · have := color_key_loop_events env slot d _ _ _ h
        simp at this
      · simp [ret] at h
    · simp [ret] at h

theorem load_masked_calls (env : Env) (depth : Nat) (a : Attrs) (slot : Option Obj)
    (nested : Option (Run Pixmap)) (cstm : Option Stream) (w h bpc n : Int)
    (imagemask interpolate indexed : Bool) (colorspace : Option Colorspace)
    (decode : List Rat) :
    nested_calls (load_masked env depth a slot nested cstm w h bpc n imagemask interpolate
      indexed colorspace decode).2 ≤ nested_bound nested := by
  unfold load_masked
  refine le_trans (nested_calls_and_then _ _ 0 ?_) (by
    have := mask_dispatch_calls env depth slot nested cstm n
    omega)
  intro x
  apply Nat.le_of_eq
  apply nested_calls_zero
  intro d hd
  rcases (mem_emit _ _ _).1 hd with hd | hd
  · simp at hd
  · revert hd
    split
    · simp [raise]
    · exact load_samples_no_mask _ _ _ _ _ _ _ _ _ _ _ _ _ _

theorem colorspace_stage_no_mask (env : Env) (rdb : Option Resources) (a : Attrs)
    (imagemask forcemask : Bool) (d : Nat) :
    Event.load_mask d ∉ (colorspace_stage env rdb a imagemask forcemask).2 := by
  unfold colorspace_stage
  intro h
  split at h
  · split at h
    · rcases (mem_emit _ _ _).1 h with h | h
      · simp at h
      · revert h
        split <;> simp [raise, ret]
    · simp [ret] at h
  · simp [ret] at h

theorem load_validated_calls (env : Env) (depth : Nat) (rdb : Option Resources) (a : Attrs)
    (slot : Option Obj) (nested : Option (Run Pixmap)) (cstm : Option Stream)
    (forcemask : Bool) (w h bpc : Int) (imagemask interpolate : Bool) :
    nested_calls (load_validated env depth rdb a slot nested cstm forcemask w h bpc imagemask
      interpolate).2 ≤ nested_bound nested := by
  rw [load_validated_stage]
  have h0 := nested_calls_zero _ (colorspace_stage_no_mask env rdb a imagemask forcemask)
  have := nested_calls_and_then (colorspace_stage env rdb a imagemask forcemask)
    (fun cs => load_masked env depth a slot nested cstm w h bpc (colorspace_n cs) imagemask
      interpolate (colorspace_indexed cs) cs
      (image_decode env a.Decode (colorspace_indexed cs) bpc (colorspace_n cs)))
    (nested_bound nested) (fun cs => load_masked_calls _ _ _ _ _ _ _ _ _ _ _ _ _ _ _)
  omega

theorem jpx_mask_calls (depth : Nat) (nested : Option (Run Pixmap)) (img : Pixmap) :
    nested_calls (jpx_mask depth nested img).2 ≤ nested_bound nested := by
  unfold jpx_mask
  split
  · rename_i r
    rw [nested_calls_emit]
    have := nested_calls_and_then (noted r "cannot load image mask/softmask" [])
      (fun mask => (ret (img.set_mask (some mask)) : Run Pixmap)) 0
      (fun _ => Nat.le_of_eq rfl)
    rw [nested_calls_noted] at this
    simp only [nested_bound]
    have h1 : nested_calls [Event.load_mask (depth + 1)] = 1 := rfl
    omega
  · exact Nat.zero_le _

theorem pdf_load_jpx_image_calls (env : Env) (depth : Nat) (a : Attrs)
    (nested : Option (Run Pixmap)) :
    nested_calls (pdf_load_jpx_image env depth a nested).2 ≤ nested_bound nested := by
  unfold pdf_load_jpx_image
  rw [nested_calls_emit]
  have h1 : nested_calls [Event.load_stream a.num a.gen] = 0 := rfl
  rw [h1, Nat.zero_add]
  split
  · exact Nat.zero_le _
  · rw [nested_calls_emit, nested_calls_emit,
      nested_calls_zero _ (jpx_colorspace_no_mask env a)]
    have h2 : nested_calls [Event.load_jpx] = 0 := rfl
    rw [h2, Nat.zero_add, Nat.zero_add]
    split
    · exact Nat.zero_le _
    · rename_i img _
      have := nested_calls_and_then (jpx_mask depth nested img)
        (fun img => (ret (jpx_decode env a (jpx_colorspace env a).1 img) : Run Pixmap)) 0
        (fun _ => Nat.le_of_eq rfl)
      have := jpx_mask_calls depth nested img
      omega

theorem load_image_body_calls (env : Env) (depth : Nat) (rdb : Option Resources)
    (a : Attrs) (slot : Option Obj) (nested nested_jpx : Option (Run Pixmap))
    (cstm : Option Stream) (forcemask : Bool) :
    nested_calls (load_image_body env depth rdb a slot nested nested_jpx cstm forcemask).2 ≤
      max (nested_bound nested) (nested_bound nested_jpx) := by
  unfold load_image_body
  split
  · refine le_trans (nested_calls_and_then _ _ 0 ?_) ?_
    · intro tile
      apply Nat.le_of_eq
      apply nested_calls_zero
      intro d
      repeat' split
      all_goals simp [raise, ret]
    · rw [nested_calls_noted]
      have := pdf_load_jpx_image_calls env depth a nested_jpx
      omega
  · simp only
    repeat' split
    all_goals first
      | exact Nat.zero_le _
      | exact le_trans (load_validated_calls _ _ _ _ _ _ _ _ _ _ _ _ _) (le_max_left _ _)

theorem pdf_load_image_imp_calls (env : Env) (dict : Descr) :
    ∀ (depth : Nat) (rdb : Option Resources) (cstm : Option Stream) (forcemask : Bool),
      nested_calls (pdf_load_image_imp env depth rdb dict cstm forcemask).2 ≤
        dict.mask_levels := by
  induction dict with
  | plain a v =>
    intro depth rdb cstm forcemask
    rw [pdf_load_image_imp]
    exact le_trans (load_image_body_calls _ _ _ _ _ _ _ _ _) (by simp [nested_bound])
  | masked a m ih =>
    intro depth rdb cstm forcemask
    rw [pdf_load_image_imp]
    refine le_trans (load_image_body_calls _ _ _ _ _ _ _ _ _) ?_
    have h1 := ih (depth + 1) rdb none true
    have h2 := ih (depth + 1) none none true
    simp only [nested_bound, Descr.mask_levels]
    omega

theorem pdf_load_image_calls (env : Env) (dict : Descr) :
    nested_calls (pdf_load_image env dict).2 ≤ dict.mask_levels := by
  unfold pdf_load_image
  rw [nested_calls_emit]
  have h1 : nested_calls [Event.find_item dict.attrs.num] = 0 := rfl
  rw [h1, Nat.zero_add]
  split
  · exact Nat.zero_le _
  · refine le_trans (nested_calls_and_then _ _ 0 ?_) ?_
    · intro pix; exact Nat.le_of_eq rfl
    · rw [nested_calls_noted]
      have := pdf_load_image_imp_calls env dict 1 none none false
      omega

theorem jpx_path_nests (env : Env) (depth : Nat) (rdb : Option Resources) (a : Attrs)
    (m : Descr) (cstm : Option Stream) (forcemask : Bool) (buf : List Nat) (img : Pixmap)
    (hjpx : pdf_is_jpx_image a.Filter = true)
    (hstream : env.pdf_load_stream a.num a.gen = Except.ok buf)
    (hcodec : env.fz_load_jpx_image buf (jpx_colorspace env a).1 = Except.ok img) :
    Event.load_mask (depth + 1) ∈
      (pdf_load_image_imp env depth rdb (Descr.masked a m) cstm forcemask).2 := by
  rw [pdf_load_image_imp, load_image_body, if_pos hjpx]
  apply mem_and_then_left
  rw [noted_log, pdf_load_jpx_image]
  simp only [hstream, hcodec]
  apply (mem_emit _ _ _).2; right
  apply (mem_emit _ _ _).2; right
  apply (mem_emit _ _ _).2; right
  apply mem_and_then_left
  simp [jpx_mask, emit]

/-- Claim C3, amended.  A call of `pdf_load_image_imp` in force-mask mode
dispatches on SMask/Mask like any other call.  Generic path: on a descriptor
that is not JPX, passes validation, has no content stream and whose
SMask/Mask is the dictionary `dict`, the call makes a nested call.  JPX path:
on a JPX descriptor whose stream load and codec decode succeed and whose
SMask/Mask is the dictionary `dict`, the call makes a nested call, in any
mode.  Every nested call started from a call at depth `depth` on `dict` has a
depth above `depth` and at most `depth + dict.mask_levels`, so the calls
started from `pdf_load_image` have depth at most `1 + dict.mask_levels` (at
most 2 when the mask has no SMask/Mask dictionary of its own).  A load makes
at most `dict.mask_levels` nested calls, so the recursion stops. -/
theorem mask_nesting_depth (env : Env) (dict : Descr) (d : Nat) :
    (∀ (depth : Nat) (rdb : Option Resources) (a : Attrs),
      pdf_is_jpx_image a.Filter = false →
      a.Width ≠ 0 → a.Width ≤ 65536 → a.Height ≠ 0 → a.Height ≤ 65536 →
      (a.ImageMask = true ∨ (a.BitsPerComponent ≠ 0 ∧ a.BitsPerComponent ≤ 16)) →
      Event.load_mask (depth + 1) ∈
        (pdf_load_image_imp env depth rdb (Descr.masked a dict) none true).2) ∧
    (∀ (depth : Nat) (rdb : Option Resources) (a : Attrs) (cstm : Option Stream)
        (forcemask : Bool) (buf : List Nat) (img : Pixmap),
      pdf_is_jpx_image a.Filter = true →
      env.pdf_load_stream a.num a.gen = Except.ok buf →
      env.fz_load_jpx_image buf (jpx_colorspace env a).1 = Except.ok img →
      Event.load_mask (depth + 1) ∈
        (pdf_load_image_imp env depth rdb (Descr.masked a dict) cstm forcemask).2) ∧
    (∀ (depth : Nat) (rdb : Option Resources) (cstm : Option Stream) (forcemask : Bool),
      Event.load_mask d ∈ (pdf_load_image_imp env depth rdb dict cstm forcemask).2 →
      depth < d ∧ d ≤ depth + dict.mask_levels) ∧
    (Event.load_mask d ∈ (pdf_load_image env dict).2 → d ≤ 1 + dict.mask_levels) ∧
    (dict.mask_levels ≤ 1 → Event.load_mask d ∈ (pdf_load_image env dict).2 → d ≤ 2) ∧
    (∀ (depth : Nat) (rdb : Option Resources) (cstm : Option Stream) (forcemask : Bool),
      nested_calls (pdf_load_image_imp env depth rdb dict cstm forcemask).2 ≤
        dict.mask_levels) ∧
    nested_calls (pdf_load_image env dict).2 ≤ dict.mask_levels := by
  have hload : Event.load_mask d ∈ (pdf_load_image env dict).2 →
      d ≤ 1 + dict.mask_levels := by
    intro h
    unfold pdf_load_image at h
    rcases (mem_emit _ _ _).1 h with h | h
    · simp at h
    · revert h
      split
      · simp [ret]
      · intro h
        rcases mem_and_then _ _ _ h with h | ⟨x, -, h⟩
        · rw [noted_log] at h
          exact (load_mask_depth env dict 1 none none false d h).2
        · simp [emit, ret] at h
  refine ⟨?_, ?_, fun depth rdb cstm forcemask h =>
    load_mask_depth env dict depth rdb cstm forcemask d h, hload, ?_,
    pdf_load_image_imp_calls env dict, pdf_load_image_calls env dict⟩
  · intro depth rdb a hjpx hw1 hw2 hh1 hh2 hbpc
    have hb0 : (if a.ImageMask then 1 else a.BitsPerComponent) ≠ 0 := by
      rcases hbpc with h | h
      · simp [h]
      · split
        · decide
        · exact h.1
    have hb16 : ¬ (if a.ImageMask then 1 else a.BitsPerComponent) > 16 := by
      rcases hbpc with h | h
      · simp [h]
      · split
        · decide
        · exact not_lt.mpr h.2
    rw [pdf_load_image_imp, load_image_body_checks _ _ _ _ _ _ _ _ _ hjpx, if_neg hw1,
      if_neg hh1, if_neg hb0, if_neg hb16, if_neg (not_lt.mpr hw2), if_neg (not_lt.mpr hh2)]
    exact load_validated_forcemask _ _ _ _ _ _ _ _ _ _ _
  · intro depth rdb a cstm forcemask buf img hjpx hstream hcodec
    exact jpx_path_nests env depth rdb a dict cstm forcemask buf img hjpx hstream hcodec
  · intro hl h
    have := hload h
    omega

/-- Instance of `mask_nesting_depth`: a force-mask call on a descriptor with a
mask dictionary makes the nested call, on the generic path and on the JPX
path, and the descriptor with two levels of masks reaches depth 3 = 1 + 2. -/
theorem mask_nesting_depth_witness :
    Event.load_mask (1 + 1) ∈
      (pdf_load_image_imp sample_env 1 none
        (Descr.masked gray_attrs (Descr.plain gray_attrs none)) none true).2 ∧
    Event.load_mask (1 + 1) ∈
      (pdf_load_image_imp sample_env 1 none
        (Descr.masked jpx_attrs (Descr.plain gray_attrs none)) none true).2 ∧
    Event.load_mask 3 ∈
      (pdf_load_image sample_env
        (Descr.masked gray_attrs
          (Descr.masked gray_attrs (Descr.plain gray_attrs none)))).2 ∧
    3 ≤ 1 + (Descr.masked gray_attrs
          (Descr.masked gray_attrs (Descr.plain gray_attrs none))).mask_levels :=
  ⟨(mask_nesting_depth sample_env (Descr.plain gray_attrs none) 0).1 1 none gray_attrs
      (by decide) (by decide) (by decide) (by decide) (by decide) (by decide),
    (mask_nesting_depth sample_env (Descr.plain gray_attrs none) 0).2.1 1 none jpx_attrs
      none true [] (Pixmap.mk 1 1 2 [1, 2] true false none) (by decide) rfl rfl,
    by decide,
    (mask_nesting_depth sample_env
      (Descr.masked gray_attrs (Descr.masked gray_attrs (Descr.plain gray_attrs none)))
      3).2.2.2.1 (by decide)⟩

/-! ### Claim C5: selection of color key masking -/

theorem mask_call_of_array (env : Env) (depth : Nat) (rdb : Option Resources) (dict : Descr)
    (h : fz_is_array dict.slot = true) : mask_call env depth rdb dict = none := by
  cases dict with
  | plain a v => rfl
  | masked a m => simp [Descr.slot, fz_is_array] at h

/-- Claim C5.  For a descriptor that is not JPX and passes validation, with
component count `n` (`colorspace->n`, or 1), in a load whose colorspace,
pixmap allocation, stream and read succeed: `usecolorkey`, the flag the
SMask/Mask dispatch hands on, is set exactly when the SMask/Mask value is an
array whose entries `0 .. 2n-1` are all integers; the pixmap that
`pdf_load_image_imp` returns has gone through `pdf_mask_color_key` exactly
when the flag is set; a loaded mask excludes the flag, and so does an
SMask/Mask dictionary.  On an array the dispatch cannot fail, and when some
entry among `0 .. 2n-1` is not an integer (or is missing) the load gives the
warning and goes on without masking. -/
theorem color_key_selection (env : Env) (depth : Nat) (rdb : Option Resources)
    (dict : Descr) (cstm : Option Stream) (forcemask : Bool)
    (cs : Option Colorspace) (cslog : List Event) (n bpc stride : Int) (indexed : Bool)
    (mask : Option Pixmap) (usecolorkey : Bool) (colorkey : List Int) (mlog : List Event)
    (tile : Pixmap) (stm : Stream) (samples : List Nat) (rlog : List Event)
    (hjpx : pdf_is_jpx_image dict.attrs.Filter = false)
    (hw0 : dict.attrs.Width ≠ 0) (hw : dict.attrs.Width ≤ 65536)
    (hh0 : dict.attrs.Height ≠ 0) (hh : dict.attrs.Height ≤ 65536)
    (hbpc : bpc = if dict.attrs.ImageMask then 1 else dict.attrs.BitsPerComponent)
    (hb0 : bpc ≠ 0) (hb : bpc ≤ 16)
    (hcs : colorspace_stage env rdb dict.attrs dict.attrs.ImageMask forcemask =
      (Except.ok cs, cslog))
    (hn : n = colorspace_n cs) (hidx : indexed = colorspace_indexed cs)
    (hn0 : 0 ≤ n) (hn1 : n ≤ 1073741823)
    (hstride : stride = image_stride dict.attrs.Width n bpc)
    (hdisp : mask_dispatch env depth dict.slot (mask_call env depth rdb dict) cstm n =
      (Except.ok (mask, usecolorkey, colorkey), mlog))
    (halloc : env.fz_new_pixmap_with_limit cs dict.attrs.Width dict.attrs.Height = some tile)
    (hstm : image_stream env dict.attrs cstm stride dict.attrs.Height = Except.ok stm)
    (hread : read_samples env dict.attrs.num cstm.isSome stm stride dict.attrs.Height =
      (Except.ok samples, rlog)) :
    (usecolorkey = true ↔
      fz_is_array dict.slot = true ∧
        ∀ i : Nat, (i : Int) < 2 * n → fz_is_int (fz_array_get dict.slot i) = true) ∧
    (mask.isSome = true → usecolorkey = false) ∧
    ((mask_call env depth rdb dict).isSome = true → usecolorkey = false) ∧
    (let unpacked := env.fz_unpack_tile
        ((tile.set_mask mask).set_interpolate dict.attrs.Interpolate)
        (invert_image_mask dict.attrs.ImageMask samples stride dict.attrs.Height)
        n bpc stride indexed
      let keyed := if usecolorkey then pdf_mask_color_key unpacked n colorkey else unpacked
      let decode := image_decode env dict.attrs.Decode indexed bpc n
      (pdf_load_image_imp env depth rdb dict cstm forcemask).1 =
        Except.ok
          (if indexed then
            env.pdf_expand_indexed_pixmap
              (env.fz_decode_indexed_tile keyed decode (isub (ishl1 bpc) 1))
          else env.fz_decode_tile keyed decode)) ∧
    (fz_is_array dict.slot = true →
      (∃ i : Nat, (i : Int) < 2 * n ∧ fz_is_int (fz_array_get dict.slot i) = false) →
      usecolorkey = false ∧
      Event.warn "invalid value in color key mask" [] ∈
        (pdf_load_image_imp env depth rdb dict cstm forcemask).2) ∧
    (fz_is_array dict.slot = true →
      ∀ (cstm' : Option Stream) (n' : Int), 0 ≤ n' → n' ≤ 1073741823 →
        ∃ u ck warnings,
          mask_dispatch env depth dict.slot (mask_call env depth rdb dict) cstm' n' =
            (Except.ok (none, u, ck), warnings)) := by
  subst hbpc hn hidx hstride
  obtain ⟨hd1, hd2⟩ := color_key_dispatch env depth dict.slot (mask_call env depth rdb dict)
    cstm (colorspace_n cs) hn0 hn1
  obtain ⟨hu, hm, hnest⟩ := hd2 mask usecolorkey colorkey mlog hdisp
  have hrun := pdf_load_image_imp_validated env depth rdb dict cstm forcemask hjpx hw0 hw hh0 hh
    hb0 hb
  rw [load_validated_run _ _ _ _ _ _ _ _ _ _ _ _ _ cs cslog mask usecolorkey colorkey mlog tile
    hcs hdisp halloc, load_samples_run _ _ _ _ _ _ _ _ _ _ _ _ _ stm samples rlog hstm hread]
    at hrun
  refine ⟨?_, hm, ?_, ?_, ?_, ?_⟩
  · rw [hu]
    constructor
    · rintro ⟨-, h2, h3⟩; exact ⟨h2, h3⟩
    · rintro ⟨h2, h3⟩; exact ⟨mask_call_of_array _ _ _ _ h2, h2, h3⟩
  · intro h
    apply hnest
    intro hc
    rw [hc] at h
    exact Bool.noConfusion h
  · intro unpacked keyed decode
    rw [hrun]
    rfl
  · intro harr hex
    obtain ⟨u, ck, warnings, hdis, hwarn, hflag, -⟩ :=
      hd1 (mask_call_of_array _ _ _ _ harr) harr
    rw [hdisp] at hdis
    simp only [Prod.mk.injEq, Except.ok.injEq] at hdis
    obtain ⟨⟨-, hu', -⟩, hl⟩ := hdis
    subst hu' hl
    refine ⟨hflag.2 hex, ?_⟩
    rw [hrun]
    simp only [emit, List.mem_append]
    exact Or.inl (Or.inr (Or.inl (hwarn.2 hex)))
  · intro harr cstm' n' hn0' hn1'
    obtain ⟨hd1', -⟩ := color_key_dispatch env depth dict.slot (mask_call env depth rdb dict)
      cstm' n' hn0' hn1'
    obtain ⟨u, ck, warnings, hdis, -⟩ := hd1' (mask_call_of_array _ _ _ _ harr) harr
    exact ⟨u, ck, warnings, hdis⟩

/-- Instance of `color_key_selection`: the 2 x 2 gray image of object 4 (four
bytes of value 7) with the key [7, 7] is masked, every pixel is zeroed; with
the array [1, 2.5] the load warns and returns the unmasked samples. -/
theorem color_key_selection_witness :
    (pdf_load_image_imp sample_env 1 none
        (Descr.plain { gray_attrs with num := 4 }
          (some (Obj.array [Scalar.int 7, Scalar.int 7]))) none false).1 =
      Except.ok (Pixmap.mk 2 2 2 [0, 0, 0, 0] true false none) ∧
    ((false = false) ∧
      Event.warn "invalid value in color key mask" [] ∈
        (pdf_load_image_imp sample_env 1 none
          (Descr.plain { gray_attrs with num := 4 }
            (some (Obj.array [Scalar.int 1, Scalar.real (5 / 2)]))) none false).2) ∧
    (pdf_load_image_imp sample_env 1 none
        (Descr.plain { gray_attrs with num := 4 }
          (some (Obj.array [Scalar.int 1, Scalar.real (5 / 2)]))) none false).1 =
      Except.ok (Pixmap.mk 2 2 2 [7, 7, 7, 7] true false none) :=
  ⟨(color_key_selection sample_env 1 none
      (Descr.plain { gray_attrs with num := 4 }
        (some (Obj.array [Scalar.int 7, Scalar.int 7]))) none false
      (some ⟨"DeviceGray", 1⟩)
      [Event.load_colorspace (Obj.scalar (Scalar.name "DeviceGray"))] 1 8 2 false
      none true [7, 7] [] (Pixmap.mk 2 2 2 [] true false none) ⟨[7, 7, 7, 7], none⟩
      [7, 7, 7, 7] [Event.calloc 2 2, Event.read 4]
      (by decide) (by decide) (by decide) (by decide) (by decide) rfl (by decide) (by decide)
      rfl rfl rfl (by decide) (by decide) (by decide) rfl rfl rfl rfl).2.2.2.1,
    (color_key_selection sample_env 1 none
      (Descr.plain { gray_attrs with num := 4 }
        (some (Obj.array [Scalar.int 1, Scalar.real (5 / 2)]))) none false
      (some ⟨"DeviceGray", 1⟩)
      [Event.load_colorspace (Obj.scalar (Scalar.name "DeviceGray"))] 1 8 2 false
      none false [1, 0] [Event.warn "invalid value in color key mask" []]
      (Pixmap.mk 2 2 2 [] true false none) ⟨[7, 7, 7, 7], none⟩
      [7, 7, 7, 7] [Event.calloc 2 2, Event.read 4]
      (by decide) (by decide) (by decide) (by decide) (by decide) rfl (by decide) (by decide)
      rfl rfl rfl (by decide) (by decide) (by decide) rfl rfl rfl rfl).2.2.2.2.1 rfl
      ⟨1, by decide, rfl⟩,
    rfl⟩

/-! ### Claim C8: the decode array -/

/-- Claim C8.  For a descriptor that is not JPX and passes validation with
`bpc` in [1,16], with component count `n` (`colorspace->n`, or 1 without a
colorspace) and `indexed` set exactly when the colorspace resolved by
`pdf_load_image_imp` is named "Indexed", in a load whose colorspace, mask
dispatch, pixmap allocation, stream and read succeed: the decode array that
the loader hands to `fz_decode_tile` (not Indexed) or to
`fz_decode_indexed_tile` (Indexed, with maximum `2^bpc - 1`) has `2n` entries;
without a Decode entry they are `decode[2k] = 0`, `decode[2k+1] = 1` when not
Indexed and `decode[2k] = 0`, `decode[2k+1] = 2^bpc - 1` when Indexed; with a
Decode entry, `decode[i]` is the `i`-th array entry read by `fz_to_real`,
unchanged. -/
theorem decode_array (env : Env) (depth : Nat) (rdb : Option Resources)
    (dict : Descr) (cstm : Option Stream) (forcemask : Bool)
    (cs : Option Colorspace) (cslog : List Event) (n bpc stride : Int) (indexed : Bool)
    (mask : Option Pixmap) (usecolorkey : Bool) (colorkey : List Int) (mlog : List Event)
    (tile : Pixmap) (stm : Stream) (samples : List Nat) (rlog : List Event)
    (hjpx : pdf_is_jpx_image dict.attrs.Filter = false)
    (hw0 : dict.attrs.Width ≠ 0) (hw : dict.attrs.Width ≤ 65536)
    (hh0 : dict.attrs.Height ≠ 0) (hh : dict.attrs.Height ≤ 65536)
    (hbpc : bpc = if dict.attrs.ImageMask then 1 else dict.attrs.BitsPerComponent)
    (hb1 : 1 ≤ bpc) (hb2 : bpc ≤ 16)
    (hcs : colorspace_stage env rdb dict.attrs dict.attrs.ImageMask forcemask =
      (Except.ok cs, cslog))
    (hn : n = colorspace_n cs) (hidx : indexed = colorspace_indexed cs)
    (hn0 : 0 ≤ n) (hn1 : n ≤ 1073741823)
    (hstride : stride = image_stride dict.attrs.Width n bpc)
    (hdisp : mask_dispatch env depth dict.slot (mask_call env depth rdb dict) cstm n =
      (Except.ok (mask, usecolorkey, colorkey), mlog))
    (halloc : env.fz_new_pixmap_with_limit cs dict.attrs.Width dict.attrs.Height = some tile)
    (hstm : image_stream env dict.attrs cstm stride dict.attrs.Height = Except.ok stm)
    (hread : read_samples env dict.attrs.num cstm.isSome stm stride dict.attrs.Height =
      (Except.ok samples, rlog)) :
    (indexed = true ↔ ∃ c, cs = some c ∧ c.name = "Indexed") ∧
    (n = match cs with
      | some c => c.n
      | none => 1) ∧
    (let decode := image_decode env dict.attrs.Decode indexed bpc n
      let unpacked := env.fz_unpack_tile
        ((tile.set_mask mask).set_interpolate dict.attrs.Interpolate)
        (invert_image_mask dict.attrs.ImageMask samples stride dict.attrs.Height)
        n bpc stride indexed
      let keyed := if usecolorkey then pdf_mask_color_key unpacked n colorkey else unpacked
      (pdf_load_image_imp env depth rdb dict cstm forcemask).1 =
        Except.ok
          (if indexed then
            env.pdf_expand_indexed_pixmap
              (env.fz_decode_indexed_tile keyed decode (2 ^ bpc.toNat - 1))
          else env.fz_decode_tile keyed decode) ∧
      decode.length = (2 * n).toNat ∧
      (dict.attrs.Decode = none → indexed = false → ∀ k : Nat, (k : Int) < n →
        decode[2 * k]? = some 0 ∧ decode[2 * k + 1]? = some 1) ∧
      (dict.attrs.Decode = none → indexed = true → ∀ k : Nat, (k : Int) < n →
        decode[2 * k]? = some 0 ∧ decode[2 * k + 1]? = some ((2 : Rat) ^ bpc.toNat - 1)) ∧
      (∀ o, dict.attrs.Decode = some o → ∀ i : Nat, (i : Int) < 2 * n →
        decode[i]? = some (env.fz_to_real (fz_array_get (some o) i)))) := by
  have hb0 : bpc ≠ 0 := by omega
  have hmax := max_index_value bpc hb1 hb2
  subst hbpc hn hidx hstride
  have hrun := pdf_load_image_imp_validated env depth rdb dict cstm forcemask hjpx hw0 hw hh0 hh
    hb0 hb2
  rw [load_validated_run _ _ _ _ _ _ _ _ _ _ _ _ _ cs cslog mask usecolorkey colorkey mlog tile
    hcs hdisp halloc, load_samples_run _ _ _ _ _ _ _ _ _ _ _ _ _ stm samples rlog hstm hread]
    at hrun
  obtain ⟨hd1, hd2, hd3, hd4⟩ := image_decode_spec env dict.attrs.Decode (colorspace_indexed cs)
    _ (colorspace_n cs) hb1 hb2 hn0 hn1
  refine ⟨?_, ?_, ?_⟩
  · cases cs with
    | none => simp [colorspace_indexed]
    | some c => simp [colorspace_indexed]
  · cases cs <;> rfl
  · intro decode unpacked keyed
    refine ⟨?_, hd1, hd2, hd3, hd4⟩
    rw [hrun, ← hmax]
    rfl

/-- Instance of `decode_array`: the 2 x 2 image of object 3 with an Indexed
colorspace at 4 bits; the decode array handed on is [0, 15]. -/
theorem decode_array_witness :
    colorspace_stage sample_env none
        indexed_attrs false false =
      (Except.ok (some ⟨"Indexed", 1⟩),
        [Event.load_colorspace (Obj.scalar (Scalar.name "Indexed"))]) ∧
    image_decode sample_env none true 4 1 = [0, 15] ∧
    (image_decode sample_env none true 4 1)[2 * 0 + 1]? =
      some ((2 : Rat) ^ (4 : Int).toNat - 1) :=
  ⟨rfl, by decide,
    ((decode_array sample_env 1 none
      (Descr.plain indexed_attrs none) none false
      (some ⟨"Indexed", 1⟩) [Event.load_colorspace (Obj.scalar (Scalar.name "Indexed"))]
      1 4 1 true none false [] [] (Pixmap.mk 2 2 2 [] true false none) ⟨[7, 7, 7], none⟩
      [7, 7] [Event.calloc 2 1, Event.read 2]
      (by decide) (by decide) (by decide) (by decide) (by decide) rfl (by decide) (by decide)
      rfl rfl rfl (by decide) (by decide) (by decide) rfl rfl rfl rfl).2.2.2.2.2.1 rfl rfl 0
      (by decide)).2⟩

/-! ### Claim C7: inversion of image masks -/

theorem colorspace_stage_image_mask (env : Env) (rdb : Option Resources) (a : Attrs)
    (forcemask : Bool) :
    colorspace_stage env rdb a true forcemask = (Except.ok none, []) := by
  unfold colorspace_stage
  split
  · rw [if_neg (by simp)]; rfl
  · rfl

/-- Claim C7.  First part, ImageMask true: for a descriptor that is not JPX,
of validated size (`1 <= w, h <= 65536`; the loader has `bpc = 1` and one
component, so `stride = (w + 7) / 8`), in a load whose mask dispatch, pixmap
allocation, stream, sample allocation and read succeed, with `padded` the
bytes read followed by zeros up to `stride * h` bytes: `padded` is the padded
buffer of the loader, and the buffer `pdf_load_image_imp` hands to
`fz_unpack_tile` is its bytewise complement `255 - b` at every index, padding
included; an all-zero buffer becomes all 255, an all-255 buffer all zero, and
complementing twice gives the buffer back.  Second part, ImageMask false: the
padded buffer that the read returns is handed to `fz_unpack_tile` as it is. -/
theorem image_mask_inversion (env : Env) (depth : Nat) (rdb : Option Resources)
    (dict : Descr) (cstm : Option Stream) (forcemask : Bool)
    (hjpx : pdf_is_jpx_image dict.attrs.Filter = false) :
    (dict.attrs.ImageMask = true →
      ∀ (stride : Int) (mask : Option Pixmap) (usecolorkey : Bool) (colorkey : List Int)
        (mlog : List Event) (tile : Pixmap) (stm : Stream) (padded : List Nat),
      1 ≤ dict.attrs.Width → dict.attrs.Width ≤ 65536 →
      1 ≤ dict.attrs.Height → dict.attrs.Height ≤ 65536 →
      stride = image_stride dict.attrs.Width 1 1 →
      mask_dispatch env depth dict.slot (mask_call env depth rdb dict) cstm 1 =
        (Except.ok (mask, usecolorkey, colorkey), mlog) →
      env.fz_new_pixmap_with_limit none dict.attrs.Width dict.attrs.Height = some tile →
      image_stream env dict.attrs cstm stride dict.attrs.Height = Except.ok stm →
      env.fz_calloc_no_abort dict.attrs.Height stride = true →
      stm.error = none →
      (∀ b ∈ stm.data, b < 256) →
      padded = stm.data.take (stride * dict.attrs.Height).toNat ++
        List.replicate ((stride * dict.attrs.Height).toNat -
          (stm.data.take (stride * dict.attrs.Height).toNat).length) 0 →
      (read_samples env dict.attrs.num cstm.isSome stm stride dict.attrs.Height).1 =
        Except.ok padded ∧
      (padded.length : Int) = stride * dict.attrs.Height ∧
      (let unpacked := env.fz_unpack_tile
          ((tile.set_mask mask).set_interpolate dict.attrs.Interpolate)
          (padded.map fun b => 255 - b) 1 1 stride false
        let keyed := if usecolorkey then pdf_mask_color_key unpacked 1 colorkey else unpacked
        (pdf_load_image_imp env depth rdb dict cstm forcemask).1 =
          Except.ok (env.fz_decode_tile keyed
            (image_decode env dict.attrs.Decode false 1 1))) ∧
      (∀ i : Nat, i < padded.length →
        (padded.map fun b => 255 - b)[i]? = some (255 - padded.getD i 0)) ∧
      (padded = List.replicate padded.length 0 →
        (padded.map fun b => 255 - b) = List.replicate padded.length 255) ∧
      (padded = List.replicate padded.length 255 →
        (padded.map fun b => 255 - b) = List.replicate padded.length 0) ∧
      ((padded.map fun b => 255 - b).map fun b => 255 - b) = padded) ∧
    (dict.attrs.ImageMask = false →
      ∀ (cs : Option Colorspace) (cslog : List Event) (n stride : Int) (indexed : Bool)
        (mask : Option Pixmap) (usecolorkey : Bool) (colorkey : List Int)
        (mlog : List Event) (tile : Pixmap) (stm : Stream) (samples : List Nat)
        (rlog : List Event),
      dict.attrs.Width ≠ 0 → dict.attrs.Width ≤ 65536 →
      dict.attrs.Height ≠ 0 → dict.attrs.Height ≤ 65536 →
      dict.attrs.BitsPerComponent ≠ 0 → dict.attrs.BitsPerComponent ≤ 16 →
      colorspace_stage env rdb dict.attrs false forcemask = (Except.ok cs, cslog) →
      n = colorspace_n cs → indexed = colorspace_indexed cs →
      stride = image_stride dict.attrs.Width n dict.attrs.BitsPerComponent →
      mask_dispatch env depth dict.slot (mask_call env depth rdb dict) cstm n =
        (Except.ok (mask, usecolorkey, colorkey), mlog) →
      env.fz_new_pixmap_with_limit cs dict.attrs.Width dict.attrs.Height = some tile →
      image_stream env dict.attrs cstm stride dict.attrs.Height = Except.ok stm →
      read_samples env dict.attrs.num cstm.isSome stm stride dict.attrs.Height =
        (Except.ok samples, rlog) →
      (let unpacked := env.fz_unpack_tile
          ((tile.set_mask mask).set_interpolate dict.attrs.Interpolate)
          samples n dict.attrs.BitsPerComponent stride indexed
        let keyed := if usecolorkey then pdf_mask_color_key unpacked n colorkey else unpacked
        let decode := image_decode env dict.attrs.Decode indexed dict.attrs.BitsPerComponent n
        (pdf_load_image_imp env depth rdb dict cstm forcemask).1 =
          Except.ok
            (if indexed then
              env.pdf_expand_indexed_pixmap
                (env.fz_decode_indexed_tile keyed decode
                  (isub (ishl1 dict.attrs.BitsPerComponent) 1))
            else env.fz_decode_tile keyed decode))) := by
  constructor
  · intro him stride mask usecolorkey colorkey mlog tile stm padded hw1 hw2 hh1 hh2 hstride
      hdisp halloc hstm hcalloc hok hbyte hpadded
    obtain ⟨he, hs1, -⟩ := image_stride_exact dict.attrs.Width 1 1 hw1 hw2 (by decide)
      (by decide) (by decide) (by decide)
    have hs2 : image_stride dict.attrs.Width 1 1 ≤ 8192 := by rw [he]; omega
    subst hstride
    generalize hS : image_stride dict.attrs.Width 1 1 = stride at *
    have hprod : 0 ≤ stride * dict.attrs.Height := by positivity
    have hprod2 : stride * dict.attrs.Height ≤ 8192 * 65536 := by nlinarith
    obtain ⟨hr1, -⟩ := read_samples_padded env dict.attrs.num cstm.isSome stm stride
      dict.attrs.Height (by omega) (by omega) (by omega) hcalloc hok
    rw [← hpadded] at hr1
    have hlenN : padded.length = (stride * dict.attrs.Height).toNat := by
      rw [hpadded, List.length_append, List.length_replicate, List.length_take]
      omega
    have hlen : (padded.length : Int) = stride * dict.attrs.Height := by
      rw [hlenN]; omega
    have hpb : ∀ b ∈ padded, b < 256 := by
      intro b hb
      rw [hpadded, List.mem_append] at hb
      rcases hb with hb | hb
      · exact hbyte b (List.mem_of_mem_take hb)
      · rw [List.eq_of_mem_replicate hb]; decide
    have hinv := invert_image_mask_spec dict.attrs.Width dict.attrs.Height padded hw1 hw2 hh1 hh2
      (by rw [hS]; exact hlen) hpb
    rw [hS] at hinv
    obtain ⟨hi1, hi2, hi3, hi4, hi5, -⟩ := hinv
    have hbpc : (if dict.attrs.ImageMask = true then (1 : Int)
        else dict.attrs.BitsPerComponent) = 1 := by rw [if_pos him]
    have hrun := pdf_load_image_imp_validated env depth rdb dict cstm forcemask hjpx
      (by omega) hw2 (by omega) hh2 (by rw [hbpc]; decide) (by rw [hbpc]; decide)
    rw [hbpc, him, load_validated_run _ _ _ _ _ _ _ _ _ _ _ _ _ none [] mask usecolorkey
        colorkey mlog tile (colorspace_stage_image_mask _ _ _ _) hdisp halloc,
      load_samples_run _ _ _ _ _ _ _ _ _ _ _ _ _ stm padded
        (read_samples env dict.attrs.num cstm.isSome stm stride dict.attrs.Height).2
        (by simpa [colorspace_n, hS] using hstm)
        (by simp only [colorspace_n, hS]; exact Prod.ext hr1 rfl)] at hrun
    simp only [colorspace_n, colorspace_indexed, hS, hi1] at hrun
    refine ⟨hr1, hlen, ?_, ?_, ?_, ?_, ?_⟩
    · intro unpacked keyed
      rw [hrun]
      rfl
    · intro i hi; rw [← hi1]; exact hi2 i hi
    · intro hz; rw [← hi1]; exact hi3 hz
    · intro hz; rw [← hi1]; exact hi4 hz
    · rw [List.map_map]
      conv_rhs => rw [← List.map_id padded]
      apply List.map_congr_left
      intro b hb
      have := hpb b hb
      simp only [Function.comp, id]
      omega
  · intro him cs cslog n stride indexed mask usecolorkey colorkey mlog tile stm samples rlog
      hw0 hw hh0 hh hb0 hb hcs hn hidx hstride hdisp halloc hstm hread
    subst hn hidx hstride
    have hbpc : (if dict.attrs.ImageMask = true then (1 : Int)
        else dict.attrs.BitsPerComponent) = dict.attrs.BitsPerComponent := by
      rw [if_neg (by simp [him])]
    have hrun := pdf_load_image_imp_validated env depth rdb dict cstm forcemask hjpx hw0 hw hh0
      hh (by rw [hbpc]; exact hb0) (by rw [hbpc]; exact hb)
    rw [hbpc, him, load_validated_run _ _ _ _ _ _ _ _ _ _ _ _ _ cs cslog mask usecolorkey
        colorkey mlog tile hcs hdisp halloc,
      load_samples_run _ _ _ _ _ _ _ _ _ _ _ _ _ stm samples rlog hstm hread] at hrun
    intro unpacked keyed decode
    rw [hrun]
    rfl

/-- Instance of `image_mask_inversion`: the 9 x 2 image mask of object 3
(stride 2); the stream has 3 bytes of value 7, the padded buffer is
[7, 7, 7, 0] and the unpacker gets [248, 248, 248, 255]. -/
theorem image_mask_inversion_witness :
    pdf_is_jpx_image (Descr.plain stencil_attrs none).attrs.Filter = false ∧
    (read_samples sample_env 3 false ⟨[7, 7, 7], none⟩ 2 2).1 = Except.ok [7, 7, 7, 0] ∧
    (pdf_load_image_imp sample_env 1 none (Descr.plain stencil_attrs none) none false).1 =
      Except.ok (Pixmap.mk 9 2 1 [248, 248, 248, 255] true false none) :=
  ⟨by decide, rfl,
    ((image_mask_inversion sample_env 1 none (Descr.plain stencil_attrs none) none false
      (by decide)).1 rfl 2 none false [] [] (Pixmap.mk 9 2 1 [] true false none)
      ⟨[7, 7, 7], none⟩ [7, 7, 7, 0] (by decide) (by decide) (by decide) (by decide)
      (by decide) rfl rfl rfl rfl rfl (by decide) rfl).2.2.1⟩

/-! ### Claim C9: the JPX path -/

theorem jpx_call_eq (env : Env) (depth : Nat) (dict : Descr) :
    jpx_call env depth dict =
      pdf_load_jpx_image env depth dict.attrs (mask_call env depth none dict) := by
  cases dict <;> rfl

/-- Claim C9, as stated, fails.  In the sample environment the codec decodes
the JPX image of object 5 into a pixmap of 2 components, but its SMask
dictionary has Width 0: the nested mask load fails and `pdf_load_image_imp`
fails, with and without force-mask, with the noted validation error of the
mask and not with "softmask must be grayscale". -/
theorem jpx_mask_failure :
    sample_env.fz_load_jpx_image [] (jpx_colorspace sample_env jpx_attrs).1 =
      Except.ok (Pixmap.mk 1 1 2 [1, 2] true false none) ∧
    pdf_load_image_imp sample_env 1 none
        (Descr.masked jpx_attrs (Descr.plain { gray_attrs with Width := 0 } none)) none true =
      (Except.error
        (Error.note
          (Error.note (Error.make "image width is zero" [])
            "cannot load image mask/softmask" [])
          "cannot load jpx image" []),
        [Event.load_stream 5 0,
          Event.load_colorspace (Obj.scalar (Scalar.name "DeviceGray")), Event.load_jpx,
          Event.load_mask 2]) ∧
    pdf_load_image_imp sample_env 1 none
        (Descr.masked jpx_attrs (Descr.plain { gray_attrs with Width := 0 } none)) none false =
      (Except.error
        (Error.note
          (Error.note (Error.make "image width is zero" [])
            "cannot load image mask/softmask" [])
          "cannot load jpx image" []),
        [Event.load_stream 5 0,
          Event.load_colorspace (Obj.scalar (Scalar.name "DeviceGray")), Event.load_jpx,
          Event.load_mask 2]) :=
  ⟨rfl, rfl, rfl⟩

/-- Claim C9, amended.  For a JPX descriptor whose stream load and codec
decode succeed (pixmap `img`) and whose SMask/Mask stage succeeds (the value
is not a dictionary, or the nested mask load succeeds; pixmap `masked`), let
`tile` be the pixmap `pdf_load_jpx_image` hands back, `masked` after the
Decode mapping.  In force-mask mode `pdf_load_image_imp` fails with "softmask
must be grayscale" exactly when `tile.n` is not 2, and for `tile.n = 2` it
succeeds with `fz_alpha_from_gray(tile, 1)`, the alpha pixmap made from the
decoded one; without force-mask it succeeds with `tile` itself, whatever
`tile.n` is.  When `fz_decode_tile` keeps the component count, `tile.n` is the
component count of the codec pixmap. -/
theorem jpx_force_mask (env : Env) (depth : Nat) (rdb : Option Resources) (dict : Descr)
    (cstm : Option Stream) (buf : List Nat) (img masked tile : Pixmap) (mlog log : List Event)
    (hjpx : pdf_is_jpx_image dict.attrs.Filter = true)
    (hstream : env.pdf_load_stream dict.attrs.num dict.attrs.gen = Except.ok buf)
    (hcodec : env.fz_load_jpx_image buf (jpx_colorspace env dict.attrs).1 = Except.ok img)
    (hmask : jpx_mask depth (mask_call env depth none dict) img = (Except.ok masked, mlog))
    (htile : tile = jpx_decode env dict.attrs (jpx_colorspace env dict.attrs).1 masked)
    (hlog : log = Event.load_stream dict.attrs.num dict.attrs.gen ::
      ((jpx_colorspace env dict.attrs).2 ++ Event.load_jpx :: mlog)) :
    ((pdf_load_image_imp env depth rdb dict cstm true).1 =
        Except.error (Error.make "softmask must be grayscale" []) ↔ tile.n ≠ 2) ∧
    (tile.n ≠ 2 → pdf_load_image_imp env depth rdb dict cstm true =
      (Except.error (Error.make "softmask must be grayscale" []), log)) ∧
    (tile.n = 2 → pdf_load_image_imp env depth rdb dict cstm true =
      (Except.ok (env.fz_alpha_from_gray tile 1), log)) ∧
    pdf_load_image_imp env depth rdb dict cstm false = (Except.ok tile, log) ∧
    ((∀ (p : Pixmap) (d : List Rat), (env.fz_decode_tile p d).n = p.n) → tile.n = img.n) ∧
    (mask_call env depth none dict = none → masked = img ∧ mlog = []) := by
  have hload : jpx_call env depth dict = (Except.ok tile, log) := by
    rw [jpx_call_eq, pdf_load_jpx_image]
    simp only [hstream, hcodec]
    rw [and_then_ok _ _ _ _ hmask, htile, hlog]
    simp [emit, ret]
  have hnoted : noted (jpx_call env depth dict) "cannot load jpx image" [] =
      (Except.ok tile, log) := by
    rw [hload]; rfl
  have h2 : tile.n ≠ 2 → pdf_load_image_imp env depth rdb dict cstm true =
      (Except.error (Error.make "softmask must be grayscale" []), log) := by
    intro hn
    rw [pdf_load_image_imp_jpx _ _ _ _ _ _ hjpx, hnoted]
    simp [and_then, emit, raise, hn]
  have h3 : tile.n = 2 → pdf_load_image_imp env depth rdb dict cstm true =
      (Except.ok (env.fz_alpha_from_gray tile 1), log) := by
    intro hn
    rw [pdf_load_image_imp_jpx _ _ _ _ _ _ hjpx, hnoted]
    simp [and_then, emit, ret, hn]
  have hmn : masked.n = img.n := by
    unfold jpx_mask at hmask
    split at hmask
    · simp only [emit, and_then] at hmask
      split at hmask
      · simp at hmask
      · simp only [ret, Prod.mk.injEq, Except.ok.injEq] at hmask
        rw [← hmask.1]
        cases img; rfl
    · simp only [ret, Prod.mk.injEq, Except.ok.injEq] at hmask
      rw [← hmask.1]
  refine ⟨?_, h2, h3, ?_, ?_, ?_⟩
  · constructor
    · intro herr hn
      rw [h3 hn] at herr
      exact Except.noConfusion herr
    · intro hn
      rw [h2 hn]
  · rw [pdf_load_image_imp_jpx _ _ _ _ _ _ hjpx, hnoted]
    simp [and_then, emit, ret]
  · intro hdec
    rw [htile, ← hmn]
    unfold jpx_decode
    split
    · split
      · exact hdec _ _
      · rfl
    · rfl
  · intro hnone
    rw [hnone] at hmask
    simp only [jpx_mask, ret, Prod.mk.injEq, Except.ok.injEq] at hmask
    exact ⟨hmask.1.symm, hmask.2.symm⟩

/-- Instance of `jpx_force_mask`: the JPX image of object 5 without a mask
dictionary; the sample codec gives a 2-component pixmap; in force-mask mode
the result is the 1-component alpha pixmap, without it the decoded pixmap. -/
theorem jpx_force_mask_witness :
    pdf_is_jpx_image (Descr.plain jpx_attrs none).attrs.Filter = true ∧
    pdf_load_image_imp sample_env 1 none (Descr.plain jpx_attrs none) none true =
      (Except.ok (Pixmap.mk 1 1 1 [] false false none),
        [Event.load_stream 5 0,
          Event.load_colorspace (Obj.scalar (Scalar.name "DeviceGray")), Event.load_jpx]) ∧
    pdf_load_image_imp sample_env 1 none (Descr.plain jpx_attrs none) none false =
      (Except.ok (Pixmap.mk 1 1 2 [1, 2] true false none),
        [Event.load_stream 5 0,
          Event.load_colorspace (Obj.scalar (Scalar.name "DeviceGray")), Event.load_jpx]) :=
  ⟨by decide,
    (jpx_force_mask sample_env 1 none (Descr.plain jpx_attrs none) none []
      (Pixmap.mk 1 1 2 [1, 2] true false none) (Pixmap.mk 1 1 2 [1, 2] true false none)
      (Pixmap.mk 1 1 2 [1, 2] true false none) []
      [Event.load_stream 5 0,
        Event.load_colorspace (Obj.scalar (Scalar.name "DeviceGray")), Event.load_jpx]
      (by decide) rfl rfl rfl rfl rfl).2.2.1 rfl,
    (jpx_force_mask sample_env 1 none (Descr.plain jpx_attrs none) none []
      (Pixmap.mk 1 1 2 [1, 2] true false none) (Pixmap.mk 1 1 2 [1, 2] true false none)
      (Pixmap.mk 1 1 2 [1, 2] true false none) []
      [Event.load_stream 5 0,
        Event.load_colorspace (Obj.scalar (Scalar.name "DeviceGray")), Event.load_jpx]
      (by decide) rfl rfl rfl rfl rfl).2.2.2.1⟩

end MuPDF
